import Mathlib

/-
Verification of the BRLTTY pty screen-mirroring layer (Programs/pty_screen.c).

The development shallowly embeds the terminal-emulation engine: the shared
screen segment is a flat row-major array of cells (index row * cols + column),
the curses window that the engine probes through in_wch is a second flat
array, and every engine operation is a pure state transformer translated
line-by-line from the C source.  Helpers that live in scr_emulator.c (which is
not part of the excerpt) are modelled from the spec's Screen Segment Store
contract and are marked as such.
-/

set_option autoImplicit false

namespace PtyScreen

/-- curses color mask bit for the red channel (COLOR_RED). -/
def COLOR_RED : Nat := 1

/-- curses color mask bit for the green channel (COLOR_GREEN). -/
def COLOR_GREEN : Nat := 2

/-- curses color mask bit for the blue channel (COLOR_BLUE). -/
def COLOR_BLUE : Nat := 4

/-- One mirrored color: a 3-channel intensity triple (ScreenSegmentColor). -/
structure ScreenSegmentColor where
  red : Nat
  green : Nat
  blue : Nat
deriving Repr, DecidableEq

/-- The all-zero color triple: the zero-initialized color of a freshly built
ScreenSegmentCharacter in setCharacter. -/
def zeroColor : ScreenSegmentColor := ⟨0, 0, 0⟩

/-- setColor: set each channel whose bit is present in the palette index to
the given intensity level, leaving absent channels untouched. -/
def setColor (ssc : ScreenSegmentColor) (color level : Nat) : ScreenSegmentColor :=
  let ssc := if color &&& COLOR_RED ≠ 0 then { ssc with red := level } else ssc
  let ssc := if color &&& COLOR_GREEN ≠ 0 then { ssc with green := level } else ssc
  let ssc := if color &&& COLOR_BLUE ≠ 0 then { ssc with blue := level } else ssc
  ssc

/-- One mirrored segment cell (ScreenSegmentCharacter): glyph, foreground and
background intensity triples, blink and underline flags. -/
structure ScreenSegmentCharacter where
  text : Nat
  foreground : ScreenSegmentColor
  background : ScreenSegmentColor
  blink : Bool
  underline : Bool
deriving Repr, DecidableEq

/-- Modelled from the spec: the base (non-brightest) intensity level used for
mirrored color channels (SCREEN_SEGMENT_COLOR_LEVEL, defined in a header that
is not part of the excerpt).  The spec only requires two intensity levels,
with the brightest being 0XFF; any base value below 0XFF preserves the
dim/bright distinction. -/
def SCREEN_SEGMENT_COLOR_LEVEL : Nat := 0XC0

/-- One curses wide character as read back by in_wch: the glyph, the
attribute bits the engine tests (A_BOLD, A_STANDOUT, A_DIM, A_REVERSE,
A_BLINK, A_UNDERLINE), and the color pair content (foreground and background
palette indices, as produced by pair_content). -/
structure CursesChar where
  text : Nat
  bold : Bool
  standout : Bool
  dim : Bool
  reverse : Bool
  blink : Bool
  underline : Bool
  fgColor : Nat
  bgColor : Nat
deriving Repr, DecidableEq

/-- The cell-image computation of setCharacter (pty_screen.c lines 162-193):
derive the mirrored segment cell from one curses character.  bold/standout
raise the foreground level to 0XFF, dim halves both levels, and reverse
swaps which mirrored field each (color, level) pair is stored into. -/
def characterImage (wch : CursesChar) : ScreenSegmentCharacter :=
  let bgLevel0 := SCREEN_SEGMENT_COLOR_LEVEL
  let fgLevel0 := if wch.bold || wch.standout then 0XFF else bgLevel0
  let fgLevel := if wch.dim then fgLevel0 >>> 1 else fgLevel0
  let bgLevel := if wch.dim then bgLevel0 >>> 1 else bgLevel0
  { text := wch.text
    foreground :=
      if wch.reverse then setColor zeroColor wch.bgColor bgLevel
      else setColor zeroColor wch.fgColor fgLevel
    background :=
      if wch.reverse then setColor zeroColor wch.fgColor fgLevel
      else setColor zeroColor wch.bgColor bgLevel
    blink := wch.blink
    underline := wch.underline }

/-- A concrete curses character carrying reverse-video plus bold, with white
(palette 7) foreground over blue (palette 4) background. -/
def reverseBoldChar : CursesChar :=
  { text := 65, bold := true, standout := false, dim := false, reverse := true
    blink := false, underline := false, fgColor := 7, bgColor := 4 }

/-- Flat row-major cell address: getScreenCharacter in scr_emulator.c computes
the cell pointer as screen start + row * columns + column (modelled from the
spec: getCell of the Screen Segment Store, bounds being the caller's
responsibility). -/
def idx (cols row column : Nat) : Nat := row * cols + column

/-- The default curses tab stop width (TABSIZE). -/
def TABSIZE : Nat := 8

/-- 2^32: unsigned int arithmetic in the source wraps modulo this. -/
def U32 : Nat := 4294967296

/-- The whole engine state: the geometry fixed by initscr (LINES, COLS), the
curses window content (what in_wch reads back, flat row-major), the mirrored
shared segment cells (flat row-major), the mirrored cursor fields of the
segment header (kept identical to the curses cursor by storeCursorPosition),
the scroll region bounds, the saved cursor pair, and the character that the
curses library writes into cells it vacates (a space rendered under the
current attributes; used by scrl, insch, delch and the clear operations). -/
structure PtyState where
  lines : Nat
  cols : Nat
  win : Nat → CursesChar
  seg : Nat → ScreenSegmentCharacter
  cursorRow : Nat
  cursorColumn : Nat
  scrollRegionTop : Nat
  scrollRegionBottom : Nat
  savedCursorRow : Nat
  savedCursorColumn : Nat
  blank : CursesChar

/-- Modelled from the spec: moveRange of the Screen Segment Store
(moveScreenCharacters), copying count cells from src to dest with
memmove-style overlap safety. -/
def moveScreenCharacters (dest src count : Nat)
    (f : Nat → ScreenSegmentCharacter) : Nat → ScreenSegmentCharacter :=
  fun j => if dest ≤ j ∧ j < dest + count then f (src + (j - dest)) else f j

/-- Modelled from the spec: fillRange of the Screen Segment Store
(propagateScreenCharacter), overwriting every cell of the address range
with a copy of the template cell at its start. -/
def propagateScreenCharacter (a b : Nat)
    (f : Nat → ScreenSegmentCharacter) : Nat → ScreenSegmentCharacter :=
  fun j => if a ≤ j ∧ j < b then f a else f j

/-- ptySetCursorPosition: move(row, column) followed by storeCursorPosition.
The curses move primitive rejects an out-of-range target and leaves the
cursor unchanged, and storeCursorPosition copies the actual curses cursor
into the segment header, so the two cursor pairs coincide and are modelled
as the single cursorRow/cursorColumn pair. -/
def ptySetCursorPosition (row column : Nat) (s : PtyState) : PtyState :=
  if row < s.lines ∧ column < s.cols then
    { s with cursorRow := row, cursorColumn := column }
  else s

/-- ptySetCursorRow. -/
def ptySetCursorRow (row : Nat) (s : PtyState) : PtyState :=
  ptySetCursorPosition row s.cursorColumn s

/-- ptySetCursorColumn. -/
def ptySetCursorColumn (column : Nat) (s : PtyState) : PtyState :=
  ptySetCursorPosition s.cursorRow column s

/-- ptySaveCursorPosition. -/
def ptySaveCursorPosition (s : PtyState) : PtyState :=
  { s with savedCursorRow := s.cursorRow, savedCursorColumn := s.cursorColumn }

/-- ptyRestoreCursorPosition. -/
def ptyRestoreCursorPosition (s : PtyState) : PtyState :=
  ptySetCursorPosition s.savedCursorRow s.savedCursorColumn s

/-- ptySetScrollRegion: records the bounds; the setscrreg call installs the
same bounds as the curses scrolling region, so one field pair models both. -/
def ptySetScrollRegion (top bottom : Nat) (s : PtyState) : PtyState :=
  { s with scrollRegionTop := top, scrollRegionBottom := bottom }

/-- isWithinScrollRegion. -/
def isWithinScrollRegion (s : PtyState) (row : Nat) : Bool :=
  if row < s.scrollRegionTop then false
  else if s.scrollRegionBottom < row then false
  else true

/-- ptyAmWithinScrollRegion. -/
def ptyAmWithinScrollRegion (s : PtyState) : Bool :=
  isWithinScrollRegion s s.cursorRow

/-- setCharacter (the probe): temporarily move to the probed cell if it is
not the current cursor position, read the curses character there (in_wch
reads at the actual curses cursor, so a rejected move reads at the old
position), move back, and store the derived image at the cell's segment
address.  Returns the updated state; callers compute the returned cell
address as idx cols row column. -/
def setCharacter (row column : Nat) (s : PtyState) : PtyState :=
  let oldRow := s.cursorRow
  let oldColumn := s.cursorColumn
  let s1 := if row = oldRow ∧ column = oldColumn then s
            else ptySetCursorPosition row column s
  let wch := s1.win (idx s1.cols s1.cursorRow s1.cursorColumn)
  let s2 := if row = oldRow ∧ column = oldColumn then s1
            else ptySetCursorPosition oldRow oldColumn s1
  let newSeg : Nat → ScreenSegmentCharacter := fun j =>
    if j = idx s.cols row column then characterImage wch else s2.seg j
  { s2 with seg := newSeg }

/-- setCurrentCharacter. -/
def setCurrentCharacter (s : PtyState) : PtyState :=
  setCharacter s.cursorRow s.cursorColumn s

/-- fillCharacters: probe the leading cell and propagate it over count
cells. -/
def fillCharacters (row column count : Nat) (s : PtyState) : PtyState :=
  let s1 := setCharacter row column s
  let newSeg := propagateScreenCharacter (idx s.cols row column)
    (idx s.cols row column + count) s1.seg
  { s1 with seg := newSeg }

/-- moveRows: move count whole rows of segment cells from srcRow to
destRow. -/
def moveRows (srcRow destRow count : Nat) (s : PtyState) : PtyState :=
  if count ≠ 0 ∧ srcRow ≠ destRow then
    let newSeg := moveScreenCharacters (destRow * s.cols) (srcRow * s.cols)
      (count * s.cols) s.seg
    { s with seg := newSeg }
  else s

/-- fillRows. -/
def fillRows (row count : Nat) (s : PtyState) : PtyState :=
  fillCharacters row 0 (count * s.cols) s

/-- The curses scrl(count) primitive for count > 0 (modelled): rows of the
scrolling region move toward the top by count, rows scrolled in at the
bottom hold the blank character; the cursor does not move and cells outside
the region are untouched.  scrl(0) is the identity. -/
def winScrollForward (count : Nat) (s : PtyState) : PtyState :=
  let newWin : Nat → CursesChar := fun j =>
    if s.scrollRegionTop ≤ j / s.cols ∧ j / s.cols ≤ s.scrollRegionBottom then
      (if j / s.cols + count ≤ s.scrollRegionBottom then s.win (j + count * s.cols)
       else s.blank)
    else s.win j
  { s with win := newWin }

/-- The curses scrl(-count) primitive for count > 0 (modelled): rows of the
scrolling region move toward the bottom by count, rows scrolled in at the
top hold the blank character. -/
def winScrollBackward (count : Nat) (s : PtyState) : PtyState :=
  let newWin : Nat → CursesChar := fun j =>
    if s.scrollRegionTop ≤ j / s.cols ∧ j / s.cols ≤ s.scrollRegionBottom then
      (if s.scrollRegionTop + count ≤ j / s.cols then s.win (j - count * s.cols)
       else s.blank)
    else s.win j
  { s with win := newWin }

/-- ptyScrollBackward (pty_screen.c lines 346-357). -/
def ptyScrollBackward (count : Nat) (s : PtyState) : PtyState :=
  let row := s.scrollRegionTop
  let e := s.scrollRegionBottom + 1
  let size := e - row
  let count := if count > size then size else count
  let s1 := winScrollBackward count s
  let s2 := moveRows row (row + count) (size - count) s1
  fillRows row count s2

/-- ptyScrollForward (pty_screen.c lines 359-370). -/
def ptyScrollForward (count : Nat) (s : PtyState) : PtyState :=
  let row := s.scrollRegionTop
  let e := s.scrollRegionBottom + 1
  let size := e - row
  let count := if count > size then size else count
  let s1 := winScrollForward count s
  let s2 := moveRows (row + count) row (size - count) s1
  fillRows (e - count) count s2

/-- ptyMoveCursorUp. -/
def ptyMoveCursorUp (amount : Nat) (s : PtyState) : PtyState :=
  let row := s.cursorRow
  let amount := if amount > row then row else amount
  if amount > 0 then ptySetCursorRow (row - amount) s else s

/-- ptyMoveCursorDown: oldRow + amount is computed in unsigned int
arithmetic, wrapping modulo 2^32; the clamp bound LINES-1 assumes the
positive window height that initscr guarantees. -/
def ptyMoveCursorDown (amount : Nat) (s : PtyState) : PtyState :=
  let oldRow := s.cursorRow
  let newRow := min ((oldRow + amount) % U32) (s.lines - 1)
  if newRow ≠ oldRow then ptySetCursorRow newRow s else s

/-- ptyMoveCursorLeft. -/
def ptyMoveCursorLeft (amount : Nat) (s : PtyState) : PtyState :=
  let column := s.cursorColumn
  let amount := if amount > column then column else amount
  if amount > 0 then ptySetCursorColumn (column - amount) s else s

/-- ptyMoveCursorRight: oldColumn + amount is computed in unsigned int
arithmetic, wrapping modulo 2^32. -/
def ptyMoveCursorRight (amount : Nat) (s : PtyState) : PtyState :=
  let oldColumn := s.cursorColumn
  let newColumn := min ((oldColumn + amount) % U32) (s.cols - 1)
  if newColumn ≠ oldColumn then ptySetCursorColumn newColumn s else s

/-- ptyMoveUp1. -/
def ptyMoveUp1 (s : PtyState) : PtyState :=
  if s.cursorRow = s.scrollRegionTop then ptyScrollBackward 1 s
  else ptyMoveCursorUp 1 s

/-- ptyMoveDown1. -/
def ptyMoveDown1 (s : PtyState) : PtyState :=
  if s.cursorRow = s.scrollRegionBottom then ptyScrollForward 1 s
  else ptyMoveCursorDown 1 s

/-- ptyTabBackward: cursorColumn - 1 is computed in unsigned int arithmetic,
so a cursor in column 0 yields a huge target column that the move inside
ptySetCursorColumn rejects. -/
def ptyTabBackward (s : PtyState) : PtyState :=
  ptySetCursorColumn ((s.cursorColumn + U32 - 1) % U32 / TABSIZE * TABSIZE) s

/-- ptyTabForward: the target column is computed in unsigned int
arithmetic, wrapping modulo 2^32. -/
def ptyTabForward (s : PtyState) : PtyState :=
  ptySetCursorColumn ((s.cursorColumn / TABSIZE + 1) * TABSIZE % U32) s

/-- ptyInsertLines (pty_screen.c lines 429-439). -/
def ptyInsertLines (count : Nat) (s : PtyState) : PtyState :=
  if ptyAmWithinScrollRegion s then
    let row := s.cursorRow
    let oldTop := s.scrollRegionTop
    let oldBottom := s.scrollRegionBottom
    let s1 := ptySetScrollRegion row s.scrollRegionBottom s
    let s2 := ptyScrollBackward count s1
    ptySetScrollRegion oldTop oldBottom s2
  else s

/-- ptyDeleteLines (pty_screen.c lines 441-452). -/
def ptyDeleteLines (count : Nat) (s : PtyState) : PtyState :=
  if ptyAmWithinScrollRegion s then
    let row := s.cursorRow
    let oldTop := s.scrollRegionTop
    let oldBottom := s.scrollRegionBottom
    let s1 := ptySetScrollRegion row s.scrollRegionBottom s
    let s2 := ptyScrollForward count s1
    ptySetScrollRegion oldTop oldBottom s2
  else s

/-- The curses insch(' ') primitive (modelled): insert one blank at the
cursor, shifting the rest of the row right by one; the last cell of the row
falls off and the cursor does not move. -/
def winInsertBlank (s : PtyState) : PtyState :=
  let newWin : Nat → CursesChar := fun j =>
    if idx s.cols s.cursorRow s.cursorColumn ≤ j ∧ j < (s.cursorRow + 1) * s.cols then
      (if j = idx s.cols s.cursorRow s.cursorColumn then s.blank else s.win (j - 1))
    else s.win j
  { s with win := newWin }

/-- The curses delch() primitive (modelled): delete the character under the
cursor, shifting the rest of the row left by one and blanking the last cell
of the row; the cursor does not move. -/
def winDeleteChar (s : PtyState) : PtyState :=
  let newWin : Nat → CursesChar := fun j =>
    if idx s.cols s.cursorRow s.cursorColumn ≤ j ∧ j < (s.cursorRow + 1) * s.cols then
      (if j + 1 < (s.cursorRow + 1) * s.cols then s.win (j + 1) else s.blank)
    else s.win j
  { s with win := newWin }

/-- Apply a state transformer count times (the while (counter-- > 0) loops
of ptyInsertCharacters and ptyDeleteCharacters). -/
def repeatOp : Nat → (PtyState → PtyState) → PtyState → PtyState
  | 0, _, s => s
  | Nat.succ n, f, s => repeatOp n f (f s)

/-- ptyInsertCharacters (pty_screen.c lines 454-469): the end pointer that
getCurrentCharacter yields is the end of the cursor's row (modelled from the
spec: insertCharacters shifts cells within the current row only). -/
def ptyInsertCharacters (count : Nat) (s : PtyState) : PtyState :=
  let fromIdx := idx s.cols s.cursorRow s.cursorColumn
  let endIdx := (s.cursorRow + 1) * s.cols
  let count := if fromIdx + count > endIdx then endIdx - fromIdx else count
  let toIdx := fromIdx + count
  let s1 := { s with seg := moveScreenCharacters toIdx fromIdx (endIdx - toIdx) s.seg }
  let s2 := repeatOp count winInsertBlank s1
  fillCharacters s.cursorRow s.cursorColumn count s2

/-- ptyDeleteCharacters (pty_screen.c lines 471-486). -/
def ptyDeleteCharacters (count : Nat) (s : PtyState) : PtyState :=
  let toIdx := idx s.cols s.cursorRow s.cursorColumn
  let endIdx := (s.cursorRow + 1) * s.cols
  let count := if toIdx + count > endIdx then endIdx - toIdx else count
  let fromIdx := toIdx + count
  let s1 := if fromIdx < endIdx then
      { s with seg := moveScreenCharacters toIdx fromIdx (endIdx - fromIdx) s.seg }
    else s
  let s2 := repeatOp count winDeleteChar s1
  fillCharacters s.cursorRow (s.cols - count) count s2

/-- The curses addch primitive (modelled): write the glyph under the current
rendition at the cursor, then advance the cursor: one column right, wrapping
to column 0 of the next row at the right margin, scrolling the region
forward by one when wrapping off the bottom of the scrolling region
(scrollok is enabled), and standing still when a wrap would leave the
window. -/
def winAddChar (ch : Nat) (s : PtyState) : PtyState :=
  let newWin : Nat → CursesChar := fun j =>
    if j = idx s.cols s.cursorRow s.cursorColumn then { s.blank with text := ch }
    else s.win j
  let s1 := { s with win := newWin }
  if s.cursorColumn + 1 < s.cols then
    { s1 with cursorColumn := s.cursorColumn + 1 }
  else if s.cursorRow = s.scrollRegionBottom then
    { winScrollForward 1 s1 with cursorColumn := 0 }
  else if s.cursorRow + 1 < s.lines then
    { s1 with cursorRow := s.cursorRow + 1, cursorColumn := 0 }
  else s1

/-- ptyAddCharacter: addch plus storeCursorPosition, then mirror the cell at
the pre-advance cursor position. -/
def ptyAddCharacter (ch : Nat) (s : PtyState) : PtyState :=
  let row := s.cursorRow
  let column := s.cursorColumn
  let s1 := winAddChar ch s
  setCharacter row column s1

/-- The curses clrtobot primitive (modelled): blank from the cursor to the
end of the window (in row-major order, the flat range from the cursor cell
to the window end). -/
def winClrToBot (s : PtyState) : PtyState :=
  let newWin : Nat → CursesChar := fun j =>
    if idx s.cols s.cursorRow s.cursorColumn ≤ j ∧ j < s.lines * s.cols then s.blank
    else s.win j
  { s with win := newWin }

/-- The curses clrtoeol primitive (modelled): blank from the cursor to the
end of the cursor's row. -/
def winClrToEol (s : PtyState) : PtyState :=
  let newWin : Nat → CursesChar := fun j =>
    if idx s.cols s.cursorRow s.cursorColumn ≤ j ∧ j < (s.cursorRow + 1) * s.cols then
      s.blank
    else s.win j
  { s with win := newWin }

/-- ptyClearToEndOfDisplay: getScreenEnd is the address one past the last
cell (modelled from the spec's fixed rows×columns geometry). -/
def ptyClearToEndOfDisplay (s : PtyState) : PtyState :=
  let s1 := winClrToBot s
  let s2 := setCurrentCharacter s1
  let newSeg := propagateScreenCharacter
    (idx s2.cols s2.cursorRow s2.cursorColumn) (s2.lines * s2.cols) s2.seg
  { s2 with seg := newSeg }

/-- ptyClearToEndOfLine. -/
def ptyClearToEndOfLine (s : PtyState) : PtyState :=
  let s1 := winClrToEol s
  let s2 := setCurrentCharacter s1
  let newSeg := propagateScreenCharacter
    (idx s2.cols s2.cursorRow s2.cursorColumn)
    ((s2.cursorRow + 1) * s2.cols) s2.seg
  { s2 with seg := newSeg }

/-- The while (1) loop body of ptyClearToBeginningOfLine, with explicit fuel
standing in for the source's unbounded loop. -/
def cbolLoop (column : Nat) : Nat → PtyState → PtyState
  | 0, s => s
  | Nat.succ fuel, s =>
    let s1 := ptyAddCharacter 32 s
    if column < s1.cursorColumn then s1 else cbolLoop column fuel s1

/-- ptyClearToBeginningOfLine, with explicit fuel for its unbounded loop. -/
def ptyClearToBeginningOfLine (fuel : Nat) (s : PtyState) : PtyState :=
  let column := s.cursorColumn
  let s1 := if column > 0 then ptySetCursorColumn 0 s else s
  let s2 := cbolLoop column fuel s1
  ptySetCursorColumn column s2

/-- The derived image of the blank (vacated-cell) character. -/
def blankImage (s : PtyState) : ScreenSegmentCharacter :=
  characterImage s.blank

/-- The segment mirrors the window: every in-bounds cell of the shared
segment holds the derived image of the corresponding curses cell.  This is
the state every capture session maintains (every mutation of the window is
immediately mirrored). -/
def Mirrored (s : PtyState) : Prop :=
  ∀ r c, r < s.lines → c < s.cols →
    s.seg (idx s.cols r c) = characterImage (s.win (idx s.cols r c))

/-- One engine operation of the terminal-emulation entry points. -/
inductive PtyOp where
  | setCursorPosition (row column : Nat)
  | setCursorRow (row : Nat)
  | setCursorColumn (column : Nat)
  | saveCursorPosition
  | restoreCursorPosition
  | setScrollRegion (top bottom : Nat)
  | scrollBackward (count : Nat)
  | scrollForward (count : Nat)
  | moveCursorUp (amount : Nat)
  | moveCursorDown (amount : Nat)
  | moveCursorLeft (amount : Nat)
  | moveCursorRight (amount : Nat)
  | moveUp1
  | moveDown1
  | tabBackward
  | tabForward
  | insertLines (count : Nat)
  | deleteLines (count : Nat)
  | insertCharacters (count : Nat)
  | deleteCharacters (count : Nat)
  | addCharacter (ch : Nat)
  | clearToEndOfDisplay
  | clearToEndOfLine
  | clearToBeginningOfLine (fuel : Nat)

/-- Dispatch one engine operation. -/
def applyOp : PtyOp → PtyState → PtyState
  | PtyOp.setCursorPosition row column, s => ptySetCursorPosition row column s
  | PtyOp.setCursorRow row, s => ptySetCursorRow row s
  | PtyOp.setCursorColumn column, s => ptySetCursorColumn column s
  | PtyOp.saveCursorPosition, s => ptySaveCursorPosition s
  | PtyOp.restoreCursorPosition, s => ptyRestoreCursorPosition s
  | PtyOp.setScrollRegion top bottom, s => ptySetScrollRegion top bottom s
  | PtyOp.scrollBackward count, s => ptyScrollBackward count s
  | PtyOp.scrollForward count, s => ptyScrollForward count s
  | PtyOp.moveCursorUp amount, s => ptyMoveCursorUp amount s
  | PtyOp.moveCursorDown amount, s => ptyMoveCursorDown amount s
  | PtyOp.moveCursorLeft amount, s => ptyMoveCursorLeft amount s
  | PtyOp.moveCursorRight amount, s => ptyMoveCursorRight amount s
  | PtyOp.moveUp1, s => ptyMoveUp1 s
  | PtyOp.moveDown1, s => ptyMoveDown1 s
  | PtyOp.tabBackward, s => ptyTabBackward s
  | PtyOp.tabForward, s => ptyTabForward s
  | PtyOp.insertLines count, s => ptyInsertLines count s
  | PtyOp.deleteLines count, s => ptyDeleteLines count s
  | PtyOp.insertCharacters count, s => ptyInsertCharacters count s
  | PtyOp.deleteCharacters count, s => ptyDeleteCharacters count s
  | PtyOp.addCharacter ch, s => ptyAddCharacter ch s
  | PtyOp.clearToEndOfDisplay, s => ptyClearToEndOfDisplay s
  | PtyOp.clearToEndOfLine, s => ptyClearToEndOfLine s
  | PtyOp.clearToBeginningOfLine fuel, s => ptyClearToBeginningOfLine fuel s

/-- The environment of one ptyBeginScreen call: which of the fallible
external steps succeed (initscr; makeTerminalKey; createScreenSegment;
createMessageQueue; startMessageReceiver). -/
structure BeginEnv where
  initscrOk : Bool
  makeKeyOk : Bool
  createScreenSegmentOk : Bool
  createQueueOk : Bool
  startReceiverOk : Bool

/-- The session-level outcome of ptyBeginScreen: the returned flag, whether
a shared segment was created (and survives), whether segment creation was
even attempted, whether the message queue exists, whether the input handler
was registered, and whether the curses driver is live (initscr succeeded
and endwin has not torn it down). -/
structure BeginResult where
  returned : Bool
  segmentAttempted : Bool
  segmentCreated : Bool
  haveTerminalMessageQueue : Bool
  haveTerminalInputHandler : Bool
  driverLive : Bool
deriving Repr, DecidableEq

/-- ptyBeginScreen (pty_screen.c lines 240-285), tracked at the level of the
session resources it creates: initscr is attempted first; only if it
succeeds is createSegment attempted (makeTerminalKey, then
createScreenSegment, then enableMessages); on segment-creation failure
endwin tears the driver back down and 0 is returned. -/
def ptyBeginScreen (env : BeginEnv) : BeginResult :=
  if env.initscrOk then
    let attempted := true
    if env.makeKeyOk ∧ env.createScreenSegmentOk then
      let haveQueue := env.createQueueOk
      { returned := true
        segmentAttempted := attempted
        segmentCreated := true
        haveTerminalMessageQueue := haveQueue
        haveTerminalInputHandler := haveQueue && env.startReceiverOk
        driverLive := true }
    else
      { returned := false
        segmentAttempted := attempted
        segmentCreated := false
        haveTerminalMessageQueue := false
        haveTerminalInputHandler := false
        driverLive := false }
  else
    { returned := false
      segmentAttempted := false
      segmentCreated := false
      haveTerminalMessageQueue := false
      haveTerminalInputHandler := false
      driverLive := false }

/-- The state of the session's message channel and segment as teardown sees
it: the haveTerminalMessageQueue flag, and an event counter for how many
times destroyMessageQueue has run. -/
structure ChannelState where
  haveTerminalMessageQueue : Bool
  queueDestroyCount : Nat
deriving Repr, DecidableEq

/-- destroySegment (pty_screen.c lines 109-117): destroy the message queue
only when the flag says one exists, clearing the flag; then release the
shared segment (destroyScreenSegment is modelled from the spec: redundant
destruction is logged, never propagated, so it contributes no failure
here). -/
def destroySegment (s : ChannelState) : ChannelState :=
  if s.haveTerminalMessageQueue then
    { haveTerminalMessageQueue := false, queueDestroyCount := s.queueDestroyCount + 1 }
  else s

/-! ### Flat row-major index arithmetic -/

theorem cols_pos {cols c : Nat} (hc : c < cols) : 0 < cols :=
  Nat.lt_of_le_of_lt (Nat.zero_le c) hc

theorem idx_div {cols r c : Nat} (hc : c < cols) : idx cols r c / cols = r := by
  have hpos : 0 < cols := cols_pos hc
  unfold idx
  rw [Nat.add_comm, Nat.add_mul_div_right _ _ hpos, Nat.div_eq_of_lt hc, Nat.zero_add]

theorem idx_mod {cols r c : Nat} (hc : c < cols) : idx cols r c % cols = c := by
  unfold idx
  rw [Nat.add_comm, Nat.add_mul_mod_self_right, Nat.mod_eq_of_lt hc]

theorem idx_lt_of_row_lt {cols r c b : Nat} (hc : c < cols) (h : r < b) :
    idx cols r c < b * cols := by
  have h1 : idx cols r c < (r + 1) * cols := by
    unfold idx; rw [Nat.succ_mul]; omega
  have h2 : (r + 1) * cols ≤ b * cols := Nat.mul_le_mul_right cols h
  omega

theorem row_lt_of_idx_lt {cols r c b : Nat} (h : idx cols r c < b * cols) : r < b := by
  by_contra hb
  push_neg at hb
  have h2 : b * cols ≤ r * cols := Nat.mul_le_mul_right cols hb
  unfold idx at h; omega

theorem le_idx_of_row_le {cols r c a : Nat} (h : a ≤ r) : a * cols ≤ idx cols r c := by
  have h2 : a * cols ≤ r * cols := Nat.mul_le_mul_right cols h
  unfold idx; omega

theorem row_le_of_le_idx {cols r c a : Nat} (hc : c < cols) (h : a * cols ≤ idx cols r c) :
    a ≤ r := by
  by_contra hb
  push_neg at hb
  have h2 : (r + 1) * cols ≤ a * cols := Nat.mul_le_mul_right cols hb
  have h3 : (r + 1) * cols = r * cols + cols := Nat.succ_mul r cols
  unfold idx at h; omega

theorem idx_add_mul {cols r c n : Nat} : idx cols r c + n * cols = idx cols (r + n) c := by
  unfold idx; ring

theorem idx_sub_mul {cols r c n : Nat} (h : n ≤ r) :
    idx cols r c - n * cols = idx cols (r - n) c := by
  have h2 : (r - n) * cols + n * cols = r * cols := by
    rw [← Nat.add_mul, Nat.sub_add_cancel h]
  unfold idx; omega

theorem idx_inj {cols r c q d : Nat} (hc : c < cols) (hd : d < cols)
    (h : idx cols r c = idx cols q d) : r = q ∧ c = d := by
  have hr1 := @idx_div cols r c hc
  have hr2 := @idx_div cols q d hd
  have hm1 := @idx_mod cols r c hc
  have hm2 := @idx_mod cols q d hd
  rw [h] at hr1 hm1
  exact ⟨by omega, by omega⟩

/-! ### Field-preservation facts for the engine operations -/

@[simp] theorem setCursorPosition_lines (row column : Nat) (s : PtyState) :
    (ptySetCursorPosition row column s).lines = s.lines := by
  unfold ptySetCursorPosition; split <;> rfl

@[simp] theorem setCursorPosition_cols (row column : Nat) (s : PtyState) :
    (ptySetCursorPosition row column s).cols = s.cols := by
  unfold ptySetCursorPosition; split <;> rfl

@[simp] theorem setCursorPosition_seg (row column : Nat) (s : PtyState) :
    (ptySetCursorPosition row column s).seg = s.seg := by
  unfold ptySetCursorPosition; split <;> rfl

@[simp] theorem setCursorPosition_win (row column : Nat) (s : PtyState) :
    (ptySetCursorPosition row column s).win = s.win := by
  unfold ptySetCursorPosition; split <;> rfl

@[simp] theorem setCursorPosition_blank (row column : Nat) (s : PtyState) :
    (ptySetCursorPosition row column s).blank = s.blank := by
  unfold ptySetCursorPosition; split <;> rfl

@[simp] theorem setCursorPosition_top (row column : Nat) (s : PtyState) :
    (ptySetCursorPosition row column s).scrollRegionTop = s.scrollRegionTop := by
  unfold ptySetCursorPosition; split <;> rfl

@[simp] theorem setCursorPosition_bottom (row column : Nat) (s : PtyState) :
    (ptySetCursorPosition row column s).scrollRegionBottom = s.scrollRegionBottom := by
  unfold ptySetCursorPosition; split <;> rfl

@[simp] theorem setCursorPosition_savedRow (row column : Nat) (s : PtyState) :
    (ptySetCursorPosition row column s).savedCursorRow = s.savedCursorRow := by
  unfold ptySetCursorPosition; split <;> rfl

@[simp] theorem setCursorPosition_savedColumn (row column : Nat) (s : PtyState) :
    (ptySetCursorPosition row column s).savedCursorColumn = s.savedCursorColumn := by
  unfold ptySetCursorPosition; split <;> rfl

theorem setCursorPosition_cursor_inBounds {row column : Nat} (s : PtyState)
    (hr : row < s.lines) (hc : column < s.cols) :
    (ptySetCursorPosition row column s).cursorRow = row ∧
      (ptySetCursorPosition row column s).cursorColumn = column := by
  unfold ptySetCursorPosition
  rw [if_pos ⟨hr, hc⟩]
  exact ⟨rfl, rfl⟩

theorem setCursorPosition_cursorRow_lt {row column : Nat} (s : PtyState)
    (h : s.cursorRow < s.lines) :
    (ptySetCursorPosition row column s).cursorRow < s.lines := by
  unfold ptySetCursorPosition; split
  · next hp => exact hp.1
  · exact h

theorem setCursorPosition_cursorColumn_lt {row column : Nat} (s : PtyState)
    (h : s.cursorColumn < s.cols) :
    (ptySetCursorPosition row column s).cursorColumn < s.cols := by
  unfold ptySetCursorPosition; split
  · next hp => exact hp.2
  · exact h

@[simp] theorem winScrollForward_seg (count : Nat) (s : PtyState) :
    (winScrollForward count s).seg = s.seg := rfl

@[simp] theorem winScrollForward_lines (count : Nat) (s : PtyState) :
    (winScrollForward count s).lines = s.lines := rfl

@[simp] theorem winScrollForward_cols (count : Nat) (s : PtyState) :
    (winScrollForward count s).cols = s.cols := rfl

@[simp] theorem winScrollForward_cursorRow (count : Nat) (s : PtyState) :
    (winScrollForward count s).cursorRow = s.cursorRow := rfl

@[simp] theorem winScrollForward_cursorColumn (count : Nat) (s : PtyState) :
    (winScrollForward count s).cursorColumn = s.cursorColumn := rfl

@[simp] theorem winScrollForward_blank (count : Nat) (s : PtyState) :
    (winScrollForward count s).blank = s.blank := rfl

@[simp] theorem winScrollForward_top (count : Nat) (s : PtyState) :
    (winScrollForward count s).scrollRegionTop = s.scrollRegionTop := rfl

@[simp] theorem winScrollForward_bottom (count : Nat) (s : PtyState) :
    (winScrollForward count s).scrollRegionBottom = s.scrollRegionBottom := rfl

@[simp] theorem winScrollBackward_seg (count : Nat) (s : PtyState) :
    (winScrollBackward count s).seg = s.seg := rfl

@[simp] theorem winScrollBackward_lines (count : Nat) (s : PtyState) :
    (winScrollBackward count s).lines = s.lines := rfl

@[simp] theorem winScrollBackward_cols (count : Nat) (s : PtyState) :
    (winScrollBackward count s).cols = s.cols := rfl

@[simp] theorem winScrollBackward_cursorRow (count : Nat) (s : PtyState) :
    (winScrollBackward count s).cursorRow = s.cursorRow := rfl

@[simp] theorem winScrollBackward_cursorColumn (count : Nat) (s : PtyState) :
    (winScrollBackward count s).cursorColumn = s.cursorColumn := rfl

@[simp] theorem winScrollBackward_blank (count : Nat) (s : PtyState) :
    (winScrollBackward count s).blank = s.blank := rfl

@[simp] theorem winScrollBackward_top (count : Nat) (s : PtyState) :
    (winScrollBackward count s).scrollRegionTop = s.scrollRegionTop := rfl

@[simp] theorem winScrollBackward_bottom (count : Nat) (s : PtyState) :
    (winScrollBackward count s).scrollRegionBottom = s.scrollRegionBottom := rfl

@[simp] theorem moveRows_win (srcRow destRow count : Nat) (s : PtyState) :
    (moveRows srcRow destRow count s).win = s.win := by
  unfold moveRows; split <;> rfl

@[simp] theorem moveRows_lines (srcRow destRow count : Nat) (s : PtyState) :
    (moveRows srcRow destRow count s).lines = s.lines := by
  unfold moveRows; split <;> rfl

@[simp] theorem moveRows_cols (srcRow destRow count : Nat) (s : PtyState) :
    (moveRows srcRow destRow count s).cols = s.cols := by
  unfold moveRows; split <;> rfl

@[simp] theorem moveRows_cursorRow (srcRow destRow count : Nat) (s : PtyState) :
    (moveRows srcRow destRow count s).cursorRow = s.cursorRow := by
  unfold moveRows; split <;> rfl

@[simp] theorem moveRows_cursorColumn (srcRow destRow count : Nat) (s : PtyState) :
    (moveRows srcRow destRow count s).cursorColumn = s.cursorColumn := by
  unfold moveRows; split <;> rfl

@[simp] theorem moveRows_blank (srcRow destRow count : Nat) (s : PtyState) :
    (moveRows srcRow destRow count s).blank = s.blank := by
  unfold moveRows; split <;> rfl

@[simp] theorem moveRows_top (srcRow destRow count : Nat) (s : PtyState) :
    (moveRows srcRow destRow count s).scrollRegionTop = s.scrollRegionTop := by
  unfold moveRows; split <;> rfl

@[simp] theorem moveRows_bottom (srcRow destRow count : Nat) (s : PtyState) :
    (moveRows srcRow destRow count s).scrollRegionBottom = s.scrollRegionBottom := by
  unfold moveRows; split <;> rfl

@[simp] theorem setCharacter_lines (row column : Nat) (s : PtyState) :
    (setCharacter row column s).lines = s.lines := by
  unfold setCharacter
  dsimp only
  split <;> simp

@[simp] theorem setCharacter_cols (row column : Nat) (s : PtyState) :
    (setCharacter row column s).cols = s.cols := by
  unfold setCharacter
  dsimp only
  split <;> simp

@[simp] theorem setCharacter_win (row column : Nat) (s : PtyState) :
    (setCharacter row column s).win = s.win := by
  unfold setCharacter
  dsimp only
  split <;> simp

@[simp] theorem setCharacter_blank (row column : Nat) (s : PtyState) :
    (setCharacter row column s).blank = s.blank := by
  unfold setCharacter
  dsimp only
  split <;> simp

@[simp] theorem setCharacter_top (row column : Nat) (s : PtyState) :
    (setCharacter row column s).scrollRegionTop = s.scrollRegionTop := by
  unfold setCharacter
  dsimp only
  split <;> simp

@[simp] theorem setCharacter_bottom (row column : Nat) (s : PtyState) :
    (setCharacter row column s).scrollRegionBottom = s.scrollRegionBottom := by
  unfold setCharacter
  dsimp only
  split <;> simp

/-- The probe restores the cursor whenever the pre-probe cursor is in
bounds: either no move happens at all, or the final ptySetCursorPosition
back to the old position succeeds. -/
theorem setCharacter_cursor {row column : Nat} (s : PtyState)
    (hr : s.cursorRow < s.lines) (hc : s.cursorColumn < s.cols) :
    (setCharacter row column s).cursorRow = s.cursorRow ∧
      (setCharacter row column s).cursorColumn = s.cursorColumn := by
  unfold setCharacter
  dsimp only
  split
  · next h => simp
  · next h =>
    have := @setCursorPosition_cursor_inBounds s.cursorRow s.cursorColumn
      (ptySetCursorPosition row column s)
      (by simpa using hr) (by simpa using hc)
    simpa using this

/-! ### Pointwise characterizations -/

theorem setCharacter_seg_other {row column j : Nat} (s : PtyState)
    (h : j ≠ idx s.cols row column) :
    (setCharacter row column s).seg j = s.seg j := by
  unfold setCharacter
  dsimp only
  rw [if_neg h]
  split <;> simp

theorem setCharacter_seg_self {row column : Nat} (s : PtyState)
    (h : (row = s.cursorRow ∧ column = s.cursorColumn) ∨
      (row < s.lines ∧ column < s.cols)) :
    (setCharacter row column s).seg (idx s.cols row column) =
      characterImage (s.win (idx s.cols row column)) := by
  unfold setCharacter
  dsimp only
  rw [if_pos rfl]
  split
  · next hmv => rw [hmv.1, hmv.2]
  · next hmv =>
    rcases h with h | h
    · exact absurd h hmv
    · have hcur := @setCursorPosition_cursor_inBounds row column s h.1 h.2
      rw [hcur.1, hcur.2]
      simp

theorem fillCharacters_seg (row column count j : Nat) (s : PtyState) :
    (fillCharacters row column count s).seg j =
      if idx s.cols row column ≤ j ∧ j < idx s.cols row column + count then
        (setCharacter row column s).seg (idx s.cols row column)
      else (setCharacter row column s).seg j := rfl

@[simp] theorem fillCharacters_lines (row column count : Nat) (s : PtyState) :
    (fillCharacters row column count s).lines = s.lines := by
  simp [fillCharacters]

@[simp] theorem fillCharacters_cols (row column count : Nat) (s : PtyState) :
    (fillCharacters row column count s).cols = s.cols := by
  simp [fillCharacters]

@[simp] theorem fillCharacters_win (row column count : Nat) (s : PtyState) :
    (fillCharacters row column count s).win = s.win := by
  simp [fillCharacters]

@[simp] theorem fillCharacters_blank (row column count : Nat) (s : PtyState) :
    (fillCharacters row column count s).blank = s.blank := by
  simp [fillCharacters]

@[simp] theorem fillCharacters_top (row column count : Nat) (s : PtyState) :
    (fillCharacters row column count s).scrollRegionTop = s.scrollRegionTop := by
  simp [fillCharacters]

@[simp] theorem fillCharacters_bottom (row column count : Nat) (s : PtyState) :
    (fillCharacters row column count s).scrollRegionBottom = s.scrollRegionBottom := by
  simp [fillCharacters]

theorem fillCharacters_cursor {row column count : Nat} (s : PtyState)
    (hr : s.cursorRow < s.lines) (hc : s.cursorColumn < s.cols) :
    (fillCharacters row column count s).cursorRow = s.cursorRow ∧
      (fillCharacters row column count s).cursorColumn = s.cursorColumn := by
  have h := @setCharacter_cursor row column s hr hc
  exact ⟨h.1, h.2⟩

theorem moveRows_seg {r c : Nat} (srcRow destRow cnt : Nat) (s : PtyState)
    (hc : c < s.cols) :
    (moveRows srcRow destRow cnt s).seg (idx s.cols r c) =
      if destRow ≤ r ∧ r < destRow + cnt then
        s.seg (idx s.cols (srcRow + (r - destRow)) c)
      else s.seg (idx s.cols r c) := by
  unfold moveRows
  split
  · next hg =>
    dsimp only
    simp only [moveScreenCharacters]
    by_cases hmem : destRow ≤ r ∧ r < destRow + cnt
    · have h1 : destRow * s.cols ≤ idx s.cols r c := le_idx_of_row_le hmem.1
      have h2 : idx s.cols r c < destRow * s.cols + cnt * s.cols := by
        rw [← Nat.add_mul]
        exact idx_lt_of_row_lt hc hmem.2
      rw [if_pos ⟨h1, h2⟩, if_pos hmem]
      congr 1
      rw [idx_sub_mul hmem.1]
      unfold idx
      ring
    · have hout : ¬(destRow * s.cols ≤ idx s.cols r c ∧
          idx s.cols r c < destRow * s.cols + cnt * s.cols) := by
        intro hin
        exact hmem ⟨row_le_of_le_idx hc hin.1, by
          have := hin.2
          rw [← Nat.add_mul] at this
          exact row_lt_of_idx_lt this⟩
      rw [if_neg hout, if_neg hmem]
  · next hg =>
    rw [not_and_or] at hg
    push_neg at hg
    rcases hg with hg | hg
    · rw [hg]
      split
      · next hmem => omega
      · rfl
    · split
      · next hmem =>
        rw [hg, show destRow + (r - destRow) = r from by omega]
      · rfl

theorem repeatOp_preserve {γ : Type} (g : PtyState → γ) (f : PtyState → PtyState)
    (h : ∀ t, g (f t) = g t) : ∀ (k : Nat) (s : PtyState), g (repeatOp k f s) = g s := by
  intro k
  induction k with
  | zero => intro s; rfl
  | succ n ih =>
    intro s
    rw [repeatOp, ih, h]

@[simp] theorem winInsertBlank_seg (s : PtyState) :
    (winInsertBlank s).seg = s.seg := rfl

@[simp] theorem winInsertBlank_lines (s : PtyState) :
    (winInsertBlank s).lines = s.lines := rfl

@[simp] theorem winInsertBlank_cols (s : PtyState) :
    (winInsertBlank s).cols = s.cols := rfl

@[simp] theorem winInsertBlank_cursorRow (s : PtyState) :
    (winInsertBlank s).cursorRow = s.cursorRow := rfl

@[simp] theorem winInsertBlank_cursorColumn (s : PtyState) :
    (winInsertBlank s).cursorColumn = s.cursorColumn := rfl

@[simp] theorem winInsertBlank_blank (s : PtyState) :
    (winInsertBlank s).blank = s.blank := rfl

@[simp] theorem winDeleteChar_seg (s : PtyState) :
    (winDeleteChar s).seg = s.seg := rfl

@[simp] theorem winDeleteChar_lines (s : PtyState) :
    (winDeleteChar s).lines = s.lines := rfl

@[simp] theorem winDeleteChar_cols (s : PtyState) :
    (winDeleteChar s).cols = s.cols := rfl

@[simp] theorem winDeleteChar_cursorRow (s : PtyState) :
    (winDeleteChar s).cursorRow = s.cursorRow := rfl

@[simp] theorem winDeleteChar_cursorColumn (s : PtyState) :
    (winDeleteChar s).cursorColumn = s.cursorColumn := rfl

@[simp] theorem winDeleteChar_blank (s : PtyState) :
    (winDeleteChar s).blank = s.blank := rfl

theorem winInsertBlank_win_at {x : Nat} (s : PtyState)
    (hcx : s.cursorColumn ≤ x) (hx : x < s.cols) :
    (winInsertBlank s).win (idx s.cols s.cursorRow x) =
      if x = s.cursorColumn then s.blank
      else s.win (idx s.cols s.cursorRow (x - 1)) := by
  unfold winInsertBlank
  dsimp only
  have h1 : idx s.cols s.cursorRow s.cursorColumn ≤ idx s.cols s.cursorRow x := by
    unfold idx; omega
  have h2 : idx s.cols s.cursorRow x < (s.cursorRow + 1) * s.cols := by
    unfold idx; rw [Nat.succ_mul]; omega
  rw [if_pos ⟨h1, h2⟩]
  by_cases hx0 : x = s.cursorColumn
  · rw [if_pos (by rw [hx0]), if_pos hx0]
  · have hne : idx s.cols s.cursorRow x ≠ idx s.cols s.cursorRow s.cursorColumn := by
      unfold idx; omega
    rw [if_neg hne, if_neg hx0]
    congr 1
    unfold idx; omega

theorem winDeleteChar_win_at {x : Nat} (s : PtyState)
    (hcx : s.cursorColumn ≤ x) (hx : x < s.cols) :
    (winDeleteChar s).win (idx s.cols s.cursorRow x) =
      if x + 1 < s.cols then s.win (idx s.cols s.cursorRow (x + 1))
      else s.blank := by
  unfold winDeleteChar
  dsimp only
  have h1 : idx s.cols s.cursorRow s.cursorColumn ≤ idx s.cols s.cursorRow x := by
    unfold idx; omega
  have h2 : idx s.cols s.cursorRow x < (s.cursorRow + 1) * s.cols := by
    unfold idx; rw [Nat.succ_mul]; omega
  rw [if_pos ⟨h1, h2⟩]
  by_cases hx1 : x + 1 < s.cols
  · have : idx s.cols s.cursorRow x + 1 < (s.cursorRow + 1) * s.cols := by
      unfold idx; rw [Nat.succ_mul]; omega
    rw [if_pos this, if_pos hx1]
    congr 1
  · have : ¬(idx s.cols s.cursorRow x + 1 < (s.cursorRow + 1) * s.cols) := by
      unfold idx; rw [Nat.succ_mul]; omega
    rw [if_neg this, if_neg hx1]

theorem repeat_insert_win (k : Nat) : ∀ (s : PtyState) (x : Nat),
    s.cursorColumn ≤ x → x < s.cols →
    (repeatOp k winInsertBlank s).win (idx s.cols s.cursorRow x) =
      if x < s.cursorColumn + k then s.blank
      else s.win (idx s.cols s.cursorRow (x - k)) := by
  induction k with
  | zero =>
    intro s x hcx hx
    rw [repeatOp, if_neg (by omega), Nat.sub_zero]
  | succ n ih =>
    intro s x hcx hx
    rw [repeatOp]
    have hih := ih (winInsertBlank s) x hcx hx
    simp only [winInsertBlank_cols, winInsertBlank_cursorRow, winInsertBlank_cursorColumn,
      winInsertBlank_blank] at hih
    rw [hih]
    by_cases hlt : x < s.cursorColumn + n
    · rw [if_pos hlt, if_pos (by omega)]
    · rw [if_neg hlt]
      have hstep := winInsertBlank_win_at (x := x - n) s (by omega) (by omega)
      rw [hstep]
      by_cases heq : x - n = s.cursorColumn
      · rw [if_pos heq, if_pos (by omega)]
      · rw [if_neg heq, if_neg (by omega),
          show x - n - 1 = x - (n + 1) from by omega]

theorem repeat_delete_win (k : Nat) : ∀ (s : PtyState) (x : Nat),
    s.cursorColumn ≤ x → x < s.cols →
    (repeatOp k winDeleteChar s).win (idx s.cols s.cursorRow x) =
      if x + k < s.cols then s.win (idx s.cols s.cursorRow (x + k))
      else s.blank := by
  induction k with
  | zero =>
    intro s x hcx hx
    rw [repeatOp, if_pos (by omega), Nat.add_zero]
  | succ n ih =>
    intro s x hcx hx
    rw [repeatOp]
    have hih := ih (winDeleteChar s) x hcx hx
    simp only [winDeleteChar_cols, winDeleteChar_cursorRow, winDeleteChar_cursorColumn,
      winDeleteChar_blank] at hih
    rw [hih]
    by_cases hlt : x + n < s.cols
    · rw [if_pos hlt]
      have hstep := winDeleteChar_win_at (x := x + n) s (by omega) hlt
      rw [hstep]
      by_cases hlt1 : x + n + 1 < s.cols
      · rw [if_pos hlt1, if_pos (by omega),
          show x + n + 1 = x + (n + 1) from by omega]
      · rw [if_neg hlt1, if_neg (by omega)]
    · rw [if_neg hlt, if_neg (by omega)]

theorem winScrollForward_win_at {r c : Nat} (count : Nat) (s : PtyState)
    (hc : c < s.cols) :
    (winScrollForward count s).win (idx s.cols r c) =
      if s.scrollRegionTop ≤ r ∧ r ≤ s.scrollRegionBottom then
        (if r + count ≤ s.scrollRegionBottom then s.win (idx s.cols (r + count) c)
         else s.blank)
      else s.win (idx s.cols r c) := by
  unfold winScrollForward
  dsimp only
  rw [idx_div hc, idx_add_mul]

theorem winScrollBackward_win_at {r c : Nat} (count : Nat) (s : PtyState)
    (hc : c < s.cols) :
    (winScrollBackward count s).win (idx s.cols r c) =
      if s.scrollRegionTop ≤ r ∧ r ≤ s.scrollRegionBottom then
        (if s.scrollRegionTop + count ≤ r then s.win (idx s.cols (r - count) c)
         else s.blank)
      else s.win (idx s.cols r c) := by
  unfold winScrollBackward
  dsimp only
  rw [idx_div hc]
  by_cases hin : s.scrollRegionTop ≤ r ∧ r ≤ s.scrollRegionBottom
  · rw [if_pos hin, if_pos hin]
    by_cases hge : s.scrollRegionTop + count ≤ r
    · rw [if_pos hge, if_pos hge, idx_sub_mul (by omega)]
    · rw [if_neg hge, if_neg hge]
  · rw [if_neg hin, if_neg hin]

/-! ### Scroll characterizations -/

theorem clamp_eq_min (count size : Nat) :
    (if count > size then size else count) = min count size := by
  rw [Nat.min_def]; split <;> split <;> omega

@[simp] theorem ptyScrollForward_lines (count : Nat) (s : PtyState) :
    (ptyScrollForward count s).lines = s.lines := by
  unfold ptyScrollForward fillRows
  dsimp only
  simp

@[simp] theorem ptyScrollForward_cols (count : Nat) (s : PtyState) :
    (ptyScrollForward count s).cols = s.cols := by
  unfold ptyScrollForward fillRows
  dsimp only
  simp

@[simp] theorem ptyScrollForward_blank (count : Nat) (s : PtyState) :
    (ptyScrollForward count s).blank = s.blank := by
  unfold ptyScrollForward fillRows
  dsimp only
  simp

@[simp] theorem ptyScrollForward_top (count : Nat) (s : PtyState) :
    (ptyScrollForward count s).scrollRegionTop = s.scrollRegionTop := by
  unfold ptyScrollForward fillRows
  dsimp only
  simp

@[simp] theorem ptyScrollForward_bottom (count : Nat) (s : PtyState) :
    (ptyScrollForward count s).scrollRegionBottom = s.scrollRegionBottom := by
  unfold ptyScrollForward fillRows
  dsimp only
  simp

@[simp] theorem ptyScrollBackward_lines (count : Nat) (s : PtyState) :
    (ptyScrollBackward count s).lines = s.lines := by
  unfold ptyScrollBackward fillRows
  dsimp only
  simp

@[simp] theorem ptyScrollBackward_cols (count : Nat) (s : PtyState) :
    (ptyScrollBackward count s).cols = s.cols := by
  unfold ptyScrollBackward fillRows
  dsimp only
  simp

@[simp] theorem ptyScrollBackward_blank (count : Nat) (s : PtyState) :
    (ptyScrollBackward count s).blank = s.blank := by
  unfold ptyScrollBackward fillRows
  dsimp only
  simp

@[simp] theorem ptyScrollBackward_top (count : Nat) (s : PtyState) :
    (ptyScrollBackward count s).scrollRegionTop = s.scrollRegionTop := by
  unfold ptyScrollBackward fillRows
  dsimp only
  simp

@[simp] theorem ptyScrollBackward_bottom (count : Nat) (s : PtyState) :
    (ptyScrollBackward count s).scrollRegionBottom = s.scrollRegionBottom := by
  unfold ptyScrollBackward fillRows
  dsimp only
  simp

theorem ptyScrollForward_win (count : Nat) (s : PtyState) :
    (ptyScrollForward count s).win =
      (winScrollForward (min count (s.scrollRegionBottom + 1 - s.scrollRegionTop)) s).win := by
  unfold ptyScrollForward fillRows
  dsimp only
  rw [clamp_eq_min]
  simp

theorem ptyScrollBackward_win (count : Nat) (s : PtyState) :
    (ptyScrollBackward count s).win =
      (winScrollBackward (min count (s.scrollRegionBottom + 1 - s.scrollRegionTop)) s).win := by
  unfold ptyScrollBackward fillRows
  dsimp only
  rw [clamp_eq_min]
  simp

theorem setCharacter_cursorRow {row column : Nat} (s : PtyState)
    (h1 : s.cursorRow < s.lines) (h2 : s.cursorColumn < s.cols) :
    (setCharacter row column s).cursorRow = s.cursorRow :=
  (setCharacter_cursor s h1 h2).1

theorem setCharacter_cursorColumn {row column : Nat} (s : PtyState)
    (h1 : s.cursorRow < s.lines) (h2 : s.cursorColumn < s.cols) :
    (setCharacter row column s).cursorColumn = s.cursorColumn :=
  (setCharacter_cursor s h1 h2).2

theorem ptyScrollForward_cursor (count : Nat) (s : PtyState)
    (hr : s.cursorRow < s.lines) (hc : s.cursorColumn < s.cols) :
    (ptyScrollForward count s).cursorRow = s.cursorRow ∧
      (ptyScrollForward count s).cursorColumn = s.cursorColumn := by
  unfold ptyScrollForward fillRows fillCharacters
  dsimp only
  constructor <;> simp [setCharacter_cursorRow, setCharacter_cursorColumn, hr, hc]

theorem ptyScrollBackward_cursor (count : Nat) (s : PtyState)
    (hr : s.cursorRow < s.lines) (hc : s.cursorColumn < s.cols) :
    (ptyScrollBackward count s).cursorRow = s.cursorRow ∧
      (ptyScrollBackward count s).cursorColumn = s.cursorColumn := by
  unfold ptyScrollBackward fillRows fillCharacters
  dsimp only
  constructor <;> simp [setCharacter_cursorRow, setCharacter_cursorColumn, hr, hc]

/-- Post-state of ptyScrollForward, cell by cell: with m the clamped count,
rows outside the scroll region are untouched, region rows with r + m still in
the region take the content of row r + m, and the last m rows of the region
hold the blank image. -/
theorem ptyScrollForward_seg {count r c : Nat} (s : PtyState)
    (hM : Mirrored s)
    (h1 : s.scrollRegionTop ≤ s.scrollRegionBottom)
    (h2 : s.scrollRegionBottom < s.lines)
    (hr : r < s.lines) (hc : c < s.cols) :
    (ptyScrollForward count s).seg (idx s.cols r c) =
      if s.scrollRegionTop ≤ r ∧ r ≤ s.scrollRegionBottom then
        (if r + min count (s.scrollRegionBottom + 1 - s.scrollRegionTop) ≤
            s.scrollRegionBottom then
          s.seg (idx s.cols
            (r + min count (s.scrollRegionBottom + 1 - s.scrollRegionTop)) c)
         else blankImage s)
      else s.seg (idx s.cols r c) := by
  have hc0 : 0 < s.cols := cols_pos hc
  unfold ptyScrollForward fillRows
  dsimp only
  rw [clamp_eq_min]
  simp only [moveRows_cols, winScrollForward_cols]
  generalize hmdef : min count (s.scrollRegionBottom + 1 - s.scrollRegionTop) = m
  have hms : m ≤ s.scrollRegionBottom + 1 - s.scrollRegionTop := by
    rw [← hmdef]; exact Nat.min_le_right _ _
  rw [fillCharacters_seg]
  simp only [moveRows_cols, winScrollForward_cols]
  have hrange : idx s.cols (s.scrollRegionBottom + 1 - m) 0 + m * s.cols =
      (s.scrollRegionBottom + 1) * s.cols := by
    unfold idx
    have : (s.scrollRegionBottom + 1 - m) * s.cols + m * s.cols =
        (s.scrollRegionBottom + 1) * s.cols := by
      rw [← Nat.add_mul]
      congr 1
      omega
    omega
  by_cases hmem : s.scrollRegionBottom + 1 - m ≤ r ∧ r < s.scrollRegionBottom + 1
  · have hm1 : 1 ≤ m := by omega
    rw [if_pos ⟨le_idx_of_row_le hmem.1, by rw [hrange]; exact idx_lt_of_row_lt hc hmem.2⟩]
    have hself := @setCharacter_seg_self (s.scrollRegionBottom + 1 - m) 0
      (moveRows (s.scrollRegionTop + m) s.scrollRegionTop
        (s.scrollRegionBottom + 1 - s.scrollRegionTop - m) (winScrollForward m s))
      (Or.inr (by constructor <;> simp <;> omega))
    simp only [moveRows_cols, winScrollForward_cols] at hself
    rw [hself]
    simp only [moveRows_win]
    rw [winScrollForward_win_at (r := s.scrollRegionBottom + 1 - m)
      (c := 0) m s hc0]
    rw [if_pos ⟨by omega, by omega⟩, if_neg (by omega)]
    rw [if_pos ⟨by omega, by omega⟩, if_neg (by omega)]
    rfl
  · have hnotin : ¬(idx s.cols (s.scrollRegionBottom + 1 - m) 0 ≤ idx s.cols r c ∧
        idx s.cols r c < idx s.cols (s.scrollRegionBottom + 1 - m) 0 + m * s.cols) := by
      rw [hrange]
      intro hin
      exact hmem ⟨row_le_of_le_idx hc hin.1, row_lt_of_idx_lt hin.2⟩
    rw [if_neg hnotin]
    by_cases hidx : idx s.cols r c = idx s.cols (s.scrollRegionBottom + 1 - m) 0
    · have hrc := idx_inj hc hc0 hidx
      have hm0 : m = 0 := by omega
      have hre : r = s.scrollRegionBottom + 1 := by omega
      have hself := @setCharacter_seg_self (s.scrollRegionBottom + 1 - m) 0
        (moveRows (s.scrollRegionTop + m) s.scrollRegionTop
          (s.scrollRegionBottom + 1 - s.scrollRegionTop - m) (winScrollForward m s))
        (Or.inr (by constructor <;> simp <;> omega))
      simp only [moveRows_cols, winScrollForward_cols] at hself
      rw [hidx, hself]
      simp only [moveRows_win]
      rw [winScrollForward_win_at (r := s.scrollRegionBottom + 1 - m)
        (c := 0) m s hc0]
      rw [if_neg (by omega)]
      rw [if_neg (by omega)]
      have := (hM (s.scrollRegionBottom + 1 - m) 0 (by omega) hc0).symm
      rw [this]
    · have hother := @setCharacter_seg_other (s.scrollRegionBottom + 1 - m) 0
        (idx s.cols r c)
        (moveRows (s.scrollRegionTop + m) s.scrollRegionTop
          (s.scrollRegionBottom + 1 - s.scrollRegionTop - m) (winScrollForward m s))
        (by simp only [moveRows_cols, winScrollForward_cols]; exact hidx)
      rw [hother]
      have hmr := moveRows_seg (r := r) (c := c)
        (s.scrollRegionTop + m) s.scrollRegionTop
        (s.scrollRegionBottom + 1 - s.scrollRegionTop - m)
        (winScrollForward m s) (by simpa using hc)
      simp only [winScrollForward_cols, winScrollForward_seg] at hmr
      rw [hmr]
      by_cases hreg : s.scrollRegionTop ≤ r ∧ r ≤ s.scrollRegionBottom
      · rw [if_pos ⟨hreg.1, by omega⟩, if_pos hreg, if_pos (by omega)]
        rw [show s.scrollRegionTop + m + (r - s.scrollRegionTop) = r + m from by omega]
      · rw [if_neg (by omega), if_neg hreg]

/-- Post-state of ptyScrollBackward, cell by cell: with m the clamped count,
rows outside the scroll region are untouched, region rows at or below
top + m take the content of row r - m, and the first m rows of the region
hold the blank image. -/
theorem ptyScrollBackward_seg {count r c : Nat} (s : PtyState)
    (hM : Mirrored s)
    (h1 : s.scrollRegionTop ≤ s.scrollRegionBottom)
    (h2 : s.scrollRegionBottom < s.lines)
    (hr : r < s.lines) (hc : c < s.cols) :
    (ptyScrollBackward count s).seg (idx s.cols r c) =
      if s.scrollRegionTop ≤ r ∧ r ≤ s.scrollRegionBottom then
        (if s.scrollRegionTop + min count (s.scrollRegionBottom + 1 - s.scrollRegionTop) ≤
            r then
          s.seg (idx s.cols
            (r - min count (s.scrollRegionBottom + 1 - s.scrollRegionTop)) c)
         else blankImage s)
      else s.seg (idx s.cols r c) := by
  have hc0 : 0 < s.cols := cols_pos hc
  unfold ptyScrollBackward fillRows
  dsimp only
  rw [clamp_eq_min]
  simp only [moveRows_cols, winScrollBackward_cols]
  generalize hmdef : min count (s.scrollRegionBottom + 1 - s.scrollRegionTop) = m
  have hms : m ≤ s.scrollRegionBottom + 1 - s.scrollRegionTop := by
    rw [← hmdef]; exact Nat.min_le_right _ _
  rw [fillCharacters_seg]
  simp only [moveRows_cols, winScrollBackward_cols]
  have hrange : idx s.cols s.scrollRegionTop 0 + m * s.cols =
      (s.scrollRegionTop + m) * s.cols := by
    unfold idx
    rw [Nat.add_mul]
    omega
  by_cases hmem : s.scrollRegionTop ≤ r ∧ r < s.scrollRegionTop + m
  · have hm1 : 1 ≤ m := by omega
    rw [if_pos ⟨le_idx_of_row_le hmem.1, by rw [hrange]; exact idx_lt_of_row_lt hc hmem.2⟩]
    have hself := @setCharacter_seg_self s.scrollRegionTop 0
      (moveRows s.scrollRegionTop (s.scrollRegionTop + m)
        (s.scrollRegionBottom + 1 - s.scrollRegionTop - m) (winScrollBackward m s))
      (Or.inr (by constructor <;> simp <;> omega))
    simp only [moveRows_cols, winScrollBackward_cols] at hself
    rw [hself]
    simp only [moveRows_win]
    rw [winScrollBackward_win_at (r := s.scrollRegionTop) (c := 0) m s hc0]
    rw [if_pos ⟨by omega, by omega⟩, if_neg (by omega)]
    rw [if_pos ⟨by omega, by omega⟩, if_neg (by omega)]
    rfl
  · have hnotin : ¬(idx s.cols s.scrollRegionTop 0 ≤ idx s.cols r c ∧
        idx s.cols r c < idx s.cols s.scrollRegionTop 0 + m * s.cols) := by
      rw [hrange]
      intro hin
      exact hmem ⟨row_le_of_le_idx hc hin.1, row_lt_of_idx_lt hin.2⟩
    rw [if_neg hnotin]
    by_cases hidx : idx s.cols r c = idx s.cols s.scrollRegionTop 0
    · have hrc := idx_inj hc hc0 hidx
      have hm0 : m = 0 := by omega
      have hself := @setCharacter_seg_self s.scrollRegionTop 0
        (moveRows s.scrollRegionTop (s.scrollRegionTop + m)
          (s.scrollRegionBottom + 1 - s.scrollRegionTop - m) (winScrollBackward m s))
        (Or.inr (by constructor <;> simp <;> omega))
      simp only [moveRows_cols, winScrollBackward_cols] at hself
      rw [hidx, hself]
      simp only [moveRows_win]
      rw [winScrollBackward_win_at (r := s.scrollRegionTop) (c := 0) m s hc0]
      rw [if_pos ⟨by omega, by omega⟩, if_pos (by omega)]
      have := (hM (s.scrollRegionTop - m) 0 (by omega) hc0).symm
      rw [this, hrc.1, hrc.2, if_pos ⟨by omega, by omega⟩, if_pos (by omega)]
    · have hother := @setCharacter_seg_other s.scrollRegionTop 0
        (idx s.cols r c)
        (moveRows s.scrollRegionTop (s.scrollRegionTop + m)
          (s.scrollRegionBottom + 1 - s.scrollRegionTop - m) (winScrollBackward m s))
        (by simp only [moveRows_cols, winScrollBackward_cols]; exact hidx)
      rw [hother]
      have hmr := moveRows_seg (r := r) (c := c)
        s.scrollRegionTop (s.scrollRegionTop + m)
        (s.scrollRegionBottom + 1 - s.scrollRegionTop - m)
        (winScrollBackward m s) (by simpa using hc)
      simp only [winScrollBackward_cols, winScrollBackward_seg] at hmr
      rw [hmr]
      by_cases hreg : s.scrollRegionTop ≤ r ∧ r ≤ s.scrollRegionBottom
      · rw [if_pos ⟨by omega, by omega⟩, if_pos hreg, if_pos (by omega)]
        rw [show s.scrollRegionTop + (r - (s.scrollRegionTop + m)) = r - m from by omega]
      · rw [if_neg (by omega), if_neg hreg]

theorem mirrored_ptyScrollForward (count : Nat) (s : PtyState)
    (hM : Mirrored s) (h1 : s.scrollRegionTop ≤ s.scrollRegionBottom)
    (h2 : s.scrollRegionBottom < s.lines) : Mirrored (ptyScrollForward count s) := by
  intro r c hr hc
  simp only [ptyScrollForward_lines] at hr
  simp only [ptyScrollForward_cols] at hc
  simp only [ptyScrollForward_cols]
  rw [ptyScrollForward_seg s hM h1 h2 hr hc, ptyScrollForward_win]
  rw [winScrollForward_win_at _ s hc]
  by_cases hreg : s.scrollRegionTop ≤ r ∧ r ≤ s.scrollRegionBottom
  · rw [if_pos hreg, if_pos hreg]
    by_cases hsur : r + min count (s.scrollRegionBottom + 1 - s.scrollRegionTop) ≤
        s.scrollRegionBottom
    · rw [if_pos hsur, if_pos hsur]
      exact hM _ c (by omega) hc
    · rw [if_neg hsur, if_neg hsur]
      rfl
  · rw [if_neg hreg, if_neg hreg]
    exact hM r c hr hc

/-! ### Claim C1 -/

/-- C1, as stated, is false: for a cell written with reverse-video plus bold,
the mirrored foreground field does NOT hold the pre-swap background color at
the brightest level (and the background field does not hold the pre-swap
foreground at the base level); checked at the concrete white-on-blue
reverse+bold character. -/
theorem claim1_counterexample :
    reverseBoldChar.reverse = true ∧ reverseBoldChar.bold = true ∧
    ¬((characterImage reverseBoldChar).foreground =
        setColor zeroColor reverseBoldChar.bgColor 0XFF ∧
      (characterImage reverseBoldChar).background =
        setColor zeroColor reverseBoldChar.fgColor SCREEN_SEGMENT_COLOR_LEVEL) := by
  decide

/-- C1 (amended): setCharacter computes the intensity levels for the logical
foreground/background first (bold/standout raising the foreground level to
the brightest 0XFF) and reverse video then swaps which mirrored field each
(color, level) pair lands in: with reverse plus bold (dim off), the mirrored
foreground field holds the pre-swap background color at the base intensity
level and the mirrored background field holds the pre-swap foreground color
at the brightest level. -/
theorem claim1_amended (wch : CursesChar)
    (hrev : wch.reverse = true) (hbold : wch.bold = true ∨ wch.standout = true)
    (hdim : wch.dim = false) :
    (characterImage wch).foreground =
      setColor zeroColor wch.bgColor SCREEN_SEGMENT_COLOR_LEVEL ∧
    (characterImage wch).background = setColor zeroColor wch.fgColor 0XFF := by
  unfold characterImage
  rcases hbold with h | h <;> simp [hrev, h, hdim]

/-- C1 witness: the amended derivation rule evaluated at the concrete
white-on-blue reverse+bold character. -/
theorem claim1_witness :
    reverseBoldChar.reverse = true ∧
    (characterImage reverseBoldChar).foreground =
      setColor zeroColor reverseBoldChar.bgColor SCREEN_SEGMENT_COLOR_LEVEL ∧
    (characterImage reverseBoldChar).background =
      setColor zeroColor reverseBoldChar.fgColor 0XFF :=
  ⟨rfl, claim1_amended reverseBoldChar rfl (Or.inl rfl) rfl⟩

/-! ### Claim C8 -/

/-- C8: if initscr fails, ptyBeginScreen returns failure and segment
creation is never attempted; if segment creation fails after the driver
came up, the call still returns failure with the driver torn down by endwin
and no partial session state (no segment, no message queue, no input
handler). -/
theorem claim8_begin_failure (env : BeginEnv)
    (h : env.initscrOk = false ∨ env.makeKeyOk = false ∨
      env.createScreenSegmentOk = false) :
    (ptyBeginScreen env).returned = false ∧
    (ptyBeginScreen env).segmentCreated = false ∧
    (ptyBeginScreen env).haveTerminalMessageQueue = false ∧
    (ptyBeginScreen env).haveTerminalInputHandler = false ∧
    (ptyBeginScreen env).driverLive = false ∧
    (env.initscrOk = false → (ptyBeginScreen env).segmentAttempted = false) := by
  obtain ⟨i, k, sg, q, rv⟩ := env
  cases i <;> cases k <;> cases sg <;> simp_all [ptyBeginScreen]

/-- C8 witness: a session start whose createScreenSegment step fails. -/
theorem claim8_witness :
    (ptyBeginScreen ⟨true, true, false, true, true⟩).returned = false ∧
    (ptyBeginScreen ⟨true, true, false, true, true⟩).segmentCreated = false ∧
    (ptyBeginScreen ⟨true, true, false, true, true⟩).driverLive = false :=
  ⟨(claim8_begin_failure _ (Or.inr (Or.inr rfl))).1,
   (claim8_begin_failure _ (Or.inr (Or.inr rfl))).2.1,
   (claim8_begin_failure _ (Or.inr (Or.inr rfl))).2.2.2.2.1⟩

/-! ### Claim C9 -/

/-- C9: destroySegment destroys the message queue at most once per creation:
a second consecutive teardown performs no further queue destruction, one
call performs at most one, the flag is always clear afterwards, and a
teardown with no queue ever created is a complete no-op. -/
theorem claim9_destroy_idempotent (s : ChannelState) :
    (destroySegment (destroySegment s)).queueDestroyCount =
      (destroySegment s).queueDestroyCount ∧
    (destroySegment s).queueDestroyCount ≤ s.queueDestroyCount + 1 ∧
    (destroySegment s).haveTerminalMessageQueue = false ∧
    (s.haveTerminalMessageQueue = false → destroySegment s = s) := by
  unfold destroySegment
  cases h : s.haveTerminalMessageQueue <;> simp [h]

/-- C9 witness: tearing a live channel down twice destroys the queue exactly
once. -/
theorem claim9_witness :
    (destroySegment (destroySegment ⟨true, 0⟩)).queueDestroyCount =
      (destroySegment ⟨true, 0⟩).queueDestroyCount ∧
    (destroySegment ⟨true, 0⟩).haveTerminalMessageQueue = false :=
  ⟨(claim9_destroy_idempotent ⟨true, 0⟩).1,
   (claim9_destroy_idempotent ⟨true, 0⟩).2.2.1⟩

/-! ### A concrete mirrored state for witnesses -/

/-- A plain white-on-black curses character with the given glyph. -/
def exChar (t : Nat) : CursesChar :=
  { text := t, bold := false, standout := false, dim := false, reverse := false
    blink := false, underline := false, fgColor := 7, bgColor := 0 }

/-- A concrete 3-row by 2-column capture state whose segment mirrors its
window (cell (r,c) holds glyph 65 + flat index), cursor at the origin,
scroll region covering the whole grid. -/
def exState : PtyState :=
  { lines := 3, cols := 2
    win := fun j => exChar (65 + j)
    seg := fun j => characterImage (exChar (65 + j))
    cursorRow := 0, cursorColumn := 0
    scrollRegionTop := 0, scrollRegionBottom := 2
    savedCursorRow := 0, savedCursorColumn := 0
    blank := exChar 32 }

theorem exState_mirrored : Mirrored exState := fun _ _ _ _ => rfl

@[simp] theorem blankImage_scrollForward (n : Nat) (s : PtyState) :
    blankImage (ptyScrollForward n s) = blankImage s := by
  simp [blankImage]

/-! ### Claim C4 -/

/-- C4: scrollForward/scrollBackward first clamp the count to the region
size m = min count size, then shift the surviving region rows by m (forward
toward the top, backward toward the bottom), blank-fill exactly the m rows
vacated at the region bottom (forward) respectively region top (backward),
and leave every row outside the scroll region untouched. -/
theorem claim4_scroll_spec (s : PtyState) (count r c : Nat)
    (hM : Mirrored s)
    (h1 : s.scrollRegionTop ≤ s.scrollRegionBottom)
    (h2 : s.scrollRegionBottom < s.lines)
    (hr : r < s.lines) (hc : c < s.cols) :
    ((r < s.scrollRegionTop ∨ s.scrollRegionBottom < r) →
      (ptyScrollForward count s).seg (idx s.cols r c) = s.seg (idx s.cols r c) ∧
      (ptyScrollBackward count s).seg (idx s.cols r c) = s.seg (idx s.cols r c)) ∧
    (s.scrollRegionTop ≤ r →
      r + min count (s.scrollRegionBottom + 1 - s.scrollRegionTop) ≤
        s.scrollRegionBottom →
      (ptyScrollForward count s).seg (idx s.cols r c) =
        s.seg (idx s.cols
          (r + min count (s.scrollRegionBottom + 1 - s.scrollRegionTop)) c)) ∧
    (s.scrollRegionTop ≤ r → r ≤ s.scrollRegionBottom →
      s.scrollRegionBottom < r + min count (s.scrollRegionBottom + 1 - s.scrollRegionTop) →
      (ptyScrollForward count s).seg (idx s.cols r c) = blankImage s) ∧
    (s.scrollRegionTop + min count (s.scrollRegionBottom + 1 - s.scrollRegionTop) ≤ r →
      r ≤ s.scrollRegionBottom →
      (ptyScrollBackward count s).seg (idx s.cols r c) =
        s.seg (idx s.cols
          (r - min count (s.scrollRegionBottom + 1 - s.scrollRegionTop)) c)) ∧
    (s.scrollRegionTop ≤ r →
      r < s.scrollRegionTop + min count (s.scrollRegionBottom + 1 - s.scrollRegionTop) →
      (ptyScrollBackward count s).seg (idx s.cols r c) = blankImage s) := by
  have hF := @ptyScrollForward_seg count r c s hM h1 h2 hr hc
  have hB := @ptyScrollBackward_seg count r c s hM h1 h2 hr hc
  have hms : min count (s.scrollRegionBottom + 1 - s.scrollRegionTop) ≤
      s.scrollRegionBottom + 1 - s.scrollRegionTop := Nat.min_le_right _ _
  refine ⟨?_, ?_, ?_, ?_, ?_⟩
  · intro hout
    constructor
    · rw [hF, if_neg (by omega)]
    · rw [hB, if_neg (by omega)]
  · intro hge hsur
    rw [hF, if_pos ⟨hge, by omega⟩, if_pos hsur]
  · intro hge hle hbl
    rw [hF, if_pos ⟨hge, hle⟩, if_neg (by omega)]
  · intro hge hle
    rw [hB, if_pos ⟨by omega, hle⟩, if_pos hge]
  · intro hge hlt
    rw [hB, if_pos ⟨hge, by omega⟩, if_neg (by omega)]

/-- C4 witness: on the concrete 3×2 state, scrolling forward by one brings
row 1 into row 0, blanks row 2, and scrolling backward by one blanks
row 0. -/
theorem claim4_witness :
    (ptyScrollForward 1 exState).seg (idx exState.cols 0 0) =
      exState.seg (idx exState.cols 1 0) ∧
    (ptyScrollForward 1 exState).seg (idx exState.cols 2 1) = blankImage exState ∧
    (ptyScrollBackward 1 exState).seg (idx exState.cols 0 1) = blankImage exState :=
  ⟨(claim4_scroll_spec exState 1 0 0 exState_mirrored (by decide) (by decide)
      (by decide) (by decide)).2.1 (by decide) (by decide),
   (claim4_scroll_spec exState 1 2 1 exState_mirrored (by decide) (by decide)
      (by decide) (by decide)).2.2.1 (by decide) (by decide) (by decide),
   (claim4_scroll_spec exState 1 0 1 exState_mirrored (by decide) (by decide)
      (by decide) (by decide)).2.2.2.2 (by decide) (by decide)⟩

/-! ### Claim C6 -/

/-- C6: for n at most the region size, scrollForward(n) then
scrollBackward(n) on an otherwise idle region restores every cell of every
row except the n rows at the region top, which end up blank; rows outside
the region are untouched. -/
theorem claim6_scroll_roundtrip (s : PtyState) (n r c : Nat)
    (hM : Mirrored s)
    (h1 : s.scrollRegionTop ≤ s.scrollRegionBottom)
    (h2 : s.scrollRegionBottom < s.lines)
    (hn : n ≤ s.scrollRegionBottom + 1 - s.scrollRegionTop)
    (hr : r < s.lines) (hc : c < s.cols) :
    ((r < s.scrollRegionTop ∨ s.scrollRegionBottom < r ∨ s.scrollRegionTop + n ≤ r) →
      (ptyScrollBackward n (ptyScrollForward n s)).seg (idx s.cols r c) =
        s.seg (idx s.cols r c)) ∧
    (s.scrollRegionTop ≤ r → r < s.scrollRegionTop + n →
      (ptyScrollBackward n (ptyScrollForward n s)).seg (idx s.cols r c) =
        blankImage s) := by
  have hMF := mirrored_ptyScrollForward n s hM h1 h2
  have hB := @ptyScrollBackward_seg n r c
    (ptyScrollForward n s) hMF (by simpa using h1) (by simpa using h2)
    (by simpa using hr) (by simpa using hc)
  simp only [ptyScrollForward_cols, ptyScrollForward_top, ptyScrollForward_bottom,
    ptyScrollForward_lines, blankImage_scrollForward] at hB
  rw [Nat.min_eq_left hn] at hB
  constructor
  · intro hout
    by_cases hreg : s.scrollRegionTop ≤ r ∧ r ≤ s.scrollRegionBottom
    · have htn : s.scrollRegionTop + n ≤ r := by
        rcases hout with h | h | h <;> omega
      rw [hB, if_pos hreg, if_pos htn]
      have hF := @ptyScrollForward_seg n (r - n) c s hM h1 h2
        (by omega) hc
      rw [Nat.min_eq_left hn] at hF
      rw [hF, if_pos ⟨by omega, by omega⟩, if_pos (by omega)]
      rw [show r - n + n = r from by omega]
    · rw [hB, if_neg hreg]
      have hF := @ptyScrollForward_seg n r c s hM h1 h2 hr hc
      rw [Nat.min_eq_left hn] at hF
      rw [hF, if_neg hreg]
  · intro hge hlt
    rw [hB, if_pos ⟨hge, by omega⟩, if_neg (by omega)]

/-- C6 witness: on the concrete 3×2 state with n = 1, rows 1 and 2 are
restored exactly and row 0 ends blank. -/
theorem claim6_witness :
    (ptyScrollBackward 1 (ptyScrollForward 1 exState)).seg (idx exState.cols 1 0) =
      exState.seg (idx exState.cols 1 0) ∧
    (ptyScrollBackward 1 (ptyScrollForward 1 exState)).seg (idx exState.cols 2 1) =
      exState.seg (idx exState.cols 2 1) ∧
    (ptyScrollBackward 1 (ptyScrollForward 1 exState)).seg (idx exState.cols 0 0) =
      blankImage exState :=
  ⟨(claim6_scroll_roundtrip exState 1 1 0 exState_mirrored (by decide) (by decide)
      (by decide) (by decide) (by decide)).1 (Or.inr (Or.inr (by decide))),
   (claim6_scroll_roundtrip exState 1 2 1 exState_mirrored (by decide) (by decide)
      (by decide) (by decide) (by decide)).1 (Or.inr (Or.inr (by decide))),
   (claim6_scroll_roundtrip exState 1 0 0 exState_mirrored (by decide) (by decide)
      (by decide) (by decide) (by decide)).2 (by decide) (by decide)⟩

/-! ### Claim C10 -/

/-- C10: ptyScrollForward and ptyScrollBackward leave the mirrored cursor
fields of the segment header unchanged for every count: the setCharacter
probe saves the cursor, moves to read, and restores the saved position. -/
theorem claim10_scroll_preserves_cursor (count : Nat) (s : PtyState)
    (hr : s.cursorRow < s.lines) (hc : s.cursorColumn < s.cols) :
    (ptyScrollForward count s).cursorRow = s.cursorRow ∧
    (ptyScrollForward count s).cursorColumn = s.cursorColumn ∧
    (ptyScrollBackward count s).cursorRow = s.cursorRow ∧
    (ptyScrollBackward count s).cursorColumn = s.cursorColumn :=
  ⟨(ptyScrollForward_cursor count s hr hc).1,
   (ptyScrollForward_cursor count s hr hc).2,
   (ptyScrollBackward_cursor count s hr hc).1,
   (ptyScrollBackward_cursor count s hr hc).2⟩

/-- C10 witness: scrolling the concrete state by 2 in both directions keeps
the published cursor at the origin. -/
theorem claim10_witness :
    (ptyScrollForward 2 exState).cursorRow = exState.cursorRow ∧
    (ptyScrollBackward 2 exState).cursorColumn = exState.cursorColumn :=
  ⟨(claim10_scroll_preserves_cursor 2 exState (by decide) (by decide)).1,
   (claim10_scroll_preserves_cursor 2 exState (by decide) (by decide)).2.2.2⟩

/-! ### Cursor-motion helpers -/

theorem setCursorPosition_sameColumn (row : Nat) (s : PtyState) :
    (ptySetCursorPosition row s.cursorColumn s).cursorColumn = s.cursorColumn := by
  unfold ptySetCursorPosition; split <;> rfl

theorem ptyMoveCursorUp_seg (amount : Nat) (s : PtyState) :
    (ptyMoveCursorUp amount s).seg = s.seg := by
  unfold ptyMoveCursorUp ptySetCursorRow
  dsimp only
  split_ifs <;> simp

theorem ptyMoveCursorUp_win (amount : Nat) (s : PtyState) :
    (ptyMoveCursorUp amount s).win = s.win := by
  unfold ptyMoveCursorUp ptySetCursorRow
  dsimp only
  split_ifs <;> simp

theorem ptyMoveCursorUp_cursorColumn (amount : Nat) (s : PtyState) :
    (ptyMoveCursorUp amount s).cursorColumn = s.cursorColumn := by
  unfold ptyMoveCursorUp ptySetCursorRow
  dsimp only
  split_ifs <;> first
  | exact setCursorPosition_sameColumn _ s
  | rfl

theorem ptyMoveCursorUp_one_row (s : PtyState)
    (hr : s.cursorRow < s.lines) (hc : s.cursorColumn < s.cols) :
    (ptyMoveCursorUp 1 s).cursorRow = s.cursorRow - 1 := by
  unfold ptyMoveCursorUp ptySetCursorRow ptySetCursorPosition
  dsimp only
  by_cases h0 : (1:Nat) > s.cursorRow
  · rw [if_pos h0, if_neg (by omega)]
    omega
  · rw [if_neg h0, if_pos (by omega), if_pos ⟨by omega, hc⟩]

theorem ptyMoveCursorDown_seg (amount : Nat) (s : PtyState) :
    (ptyMoveCursorDown amount s).seg = s.seg := by
  unfold ptyMoveCursorDown ptySetCursorRow
  dsimp only
  split_ifs <;> simp

theorem ptyMoveCursorDown_win (amount : Nat) (s : PtyState) :
    (ptyMoveCursorDown amount s).win = s.win := by
  unfold ptyMoveCursorDown ptySetCursorRow
  dsimp only
  split_ifs <;> simp

theorem ptyMoveCursorDown_cursorColumn (amount : Nat) (s : PtyState) :
    (ptyMoveCursorDown amount s).cursorColumn = s.cursorColumn := by
  unfold ptyMoveCursorDown ptySetCursorRow
  dsimp only
  split_ifs <;> first
  | exact setCursorPosition_sameColumn _ s
  | rfl

theorem ptyMoveCursorDown_one_row (s : PtyState)
    (hr : s.cursorRow < s.lines) (hc : s.cursorColumn < s.cols) :
    (ptyMoveCursorDown 1 s).cursorRow =
      min ((s.cursorRow + 1) % U32) (s.lines - 1) := by
  unfold ptyMoveCursorDown ptySetCursorRow ptySetCursorPosition
  dsimp only
  by_cases h0 : min ((s.cursorRow + 1) % U32) (s.lines - 1) ≠ s.cursorRow
  · rw [if_pos h0, if_pos ⟨by omega, hc⟩]
  · rw [if_neg h0]
    push_neg at h0
    omega

/-! ### Claim C3 -/

/-- C3: moveUp1 with the cursor on the scroll-region top row is exactly one
scrollBackward(1) with no cursor change; anywhere else it is exactly the
clamped one-step cursor decrement with no change to the mirrored cells.
Symmetrically moveDown1 at the region bottom is exactly one
scrollForward(1) with no cursor change, and anywhere else the clamped
one-step increment with no scroll. -/
theorem claim3_move1_boundary (s : PtyState)
    (hr : s.cursorRow < s.lines) (hc : s.cursorColumn < s.cols) :
    (s.cursorRow = s.scrollRegionTop →
      ptyMoveUp1 s = ptyScrollBackward 1 s ∧
      (ptyMoveUp1 s).cursorRow = s.cursorRow ∧
      (ptyMoveUp1 s).cursorColumn = s.cursorColumn) ∧
    (s.cursorRow ≠ s.scrollRegionTop →
      ptyMoveUp1 s = ptyMoveCursorUp 1 s ∧
      (ptyMoveUp1 s).seg = s.seg ∧ (ptyMoveUp1 s).win = s.win ∧
      (ptyMoveUp1 s).cursorRow = s.cursorRow - 1 ∧
      (ptyMoveUp1 s).cursorColumn = s.cursorColumn) ∧
    (s.cursorRow = s.scrollRegionBottom →
      ptyMoveDown1 s = ptyScrollForward 1 s ∧
      (ptyMoveDown1 s).cursorRow = s.cursorRow ∧
      (ptyMoveDown1 s).cursorColumn = s.cursorColumn) ∧
    (s.cursorRow ≠ s.scrollRegionBottom →
      ptyMoveDown1 s = ptyMoveCursorDown 1 s ∧
      (ptyMoveDown1 s).seg = s.seg ∧ (ptyMoveDown1 s).win = s.win ∧
      (ptyMoveDown1 s).cursorRow = min ((s.cursorRow + 1) % U32) (s.lines - 1) ∧
      (ptyMoveDown1 s).cursorColumn = s.cursorColumn) := by
  refine ⟨fun h => ?_, fun h => ?_, fun h => ?_, fun h => ?_⟩
  · have he : ptyMoveUp1 s = ptyScrollBackward 1 s := by
      unfold ptyMoveUp1; rw [if_pos h]
    exact ⟨he, by rw [he]; exact (ptyScrollBackward_cursor 1 s hr hc).1,
      by rw [he]; exact (ptyScrollBackward_cursor 1 s hr hc).2⟩
  · have he : ptyMoveUp1 s = ptyMoveCursorUp 1 s := by
      unfold ptyMoveUp1; rw [if_neg h]
    exact ⟨he, by rw [he, ptyMoveCursorUp_seg],
      by rw [he, ptyMoveCursorUp_win],
      by rw [he, ptyMoveCursorUp_one_row s hr hc],
      by rw [he, ptyMoveCursorUp_cursorColumn]⟩
  · have he : ptyMoveDown1 s = ptyScrollForward 1 s := by
      unfold ptyMoveDown1; rw [if_pos h]
    exact ⟨he, by rw [he]; exact (ptyScrollForward_cursor 1 s hr hc).1,
      by rw [he]; exact (ptyScrollForward_cursor 1 s hr hc).2⟩
  · have he : ptyMoveDown1 s = ptyMoveCursorDown 1 s := by
      unfold ptyMoveDown1; rw [if_neg h]
    exact ⟨he, by rw [he, ptyMoveCursorDown_seg],
      by rw [he, ptyMoveCursorDown_win],
      by rw [he, ptyMoveCursorDown_one_row s hr hc],
      by rw [he, ptyMoveCursorDown_cursorColumn]⟩

/-- C3 witness: on the concrete state the cursor sits on the region top, so
moveUp1 is a one-line backward scroll that leaves the cursor where it was. -/
theorem claim3_witness :
    ptyMoveUp1 exState = ptyScrollBackward 1 exState ∧
    (ptyMoveUp1 exState).cursorRow = exState.cursorRow :=
  ⟨((claim3_move1_boundary exState (by decide) (by decide)).1 (by decide)).1,
   ((claim3_move1_boundary exState (by decide) (by decide)).1 (by decide)).2.1⟩

/-! ### Claim C5 -/

/-- C5: insertLines/deleteLines are complete no-ops when the cursor is
outside the scroll region; with the cursor inside they equal narrowing the
region to [cursorRow, regionBottom], scrolling backward respectively
forward by count there, and restoring the original bounds — and in either
case the scroll-region state after the call equals the state before it. -/
theorem claim5_insert_delete_lines (count : Nat) (s : PtyState) :
    (ptyAmWithinScrollRegion s = false →
      ptyInsertLines count s = s ∧ ptyDeleteLines count s = s) ∧
    (ptyAmWithinScrollRegion s = true →
      ptyInsertLines count s =
        ptySetScrollRegion s.scrollRegionTop s.scrollRegionBottom
          (ptyScrollBackward count
            (ptySetScrollRegion s.cursorRow s.scrollRegionBottom s)) ∧
      ptyDeleteLines count s =
        ptySetScrollRegion s.scrollRegionTop s.scrollRegionBottom
          (ptyScrollForward count
            (ptySetScrollRegion s.cursorRow s.scrollRegionBottom s))) ∧
    (ptyInsertLines count s).scrollRegionTop = s.scrollRegionTop ∧
    (ptyInsertLines count s).scrollRegionBottom = s.scrollRegionBottom ∧
    (ptyDeleteLines count s).scrollRegionTop = s.scrollRegionTop ∧
    (ptyDeleteLines count s).scrollRegionBottom = s.scrollRegionBottom := by
  unfold ptyInsertLines ptyDeleteLines
  cases h : ptyAmWithinScrollRegion s <;> simp [h, ptySetScrollRegion]

/-- C5 witness: with the concrete state's cursor inside the region,
insertLines(1) is the narrowed backward scroll with re-widened bounds, and
the stored region is unchanged. -/
theorem claim5_witness :
    ptyAmWithinScrollRegion exState = true ∧
    ptyInsertLines 1 exState =
      ptySetScrollRegion exState.scrollRegionTop exState.scrollRegionBottom
        (ptyScrollBackward 1
          (ptySetScrollRegion exState.cursorRow exState.scrollRegionBottom exState)) ∧
    (ptyInsertLines 1 exState).scrollRegionTop = exState.scrollRegionTop :=
  ⟨by decide,
   ((claim5_insert_delete_lines 1 exState).2.1 (by decide)).1,
   (claim5_insert_delete_lines 1 exState).2.2.1⟩

/-! ### Insert/delete character characterizations -/

@[simp] theorem repeat_insert_seg (k : Nat) (s : PtyState) :
    (repeatOp k winInsertBlank s).seg = s.seg :=
  repeatOp_preserve PtyState.seg winInsertBlank (fun _ => rfl) k s

@[simp] theorem repeat_insert_lines (k : Nat) (s : PtyState) :
    (repeatOp k winInsertBlank s).lines = s.lines :=
  repeatOp_preserve PtyState.lines winInsertBlank (fun _ => rfl) k s

@[simp] theorem repeat_insert_cols (k : Nat) (s : PtyState) :
    (repeatOp k winInsertBlank s).cols = s.cols :=
  repeatOp_preserve PtyState.cols winInsertBlank (fun _ => rfl) k s

@[simp] theorem repeat_insert_cursorRow (k : Nat) (s : PtyState) :
    (repeatOp k winInsertBlank s).cursorRow = s.cursorRow :=
  repeatOp_preserve PtyState.cursorRow winInsertBlank (fun _ => rfl) k s

@[simp] theorem repeat_insert_cursorColumn (k : Nat) (s : PtyState) :
    (repeatOp k winInsertBlank s).cursorColumn = s.cursorColumn :=
  repeatOp_preserve PtyState.cursorColumn winInsertBlank (fun _ => rfl) k s

@[simp] theorem repeat_insert_blank (k : Nat) (s : PtyState) :
    (repeatOp k winInsertBlank s).blank = s.blank :=
  repeatOp_preserve PtyState.blank winInsertBlank (fun _ => rfl) k s

@[simp] theorem repeat_delete_seg (k : Nat) (s : PtyState) :
    (repeatOp k winDeleteChar s).seg = s.seg :=
  repeatOp_preserve PtyState.seg winDeleteChar (fun _ => rfl) k s

@[simp] theorem repeat_delete_lines (k : Nat) (s : PtyState) :
    (repeatOp k winDeleteChar s).lines = s.lines :=
  repeatOp_preserve PtyState.lines winDeleteChar (fun _ => rfl) k s

@[simp] theorem repeat_delete_cols (k : Nat) (s : PtyState) :
    (repeatOp k winDeleteChar s).cols = s.cols :=
  repeatOp_preserve PtyState.cols winDeleteChar (fun _ => rfl) k s

@[simp] theorem repeat_delete_cursorRow (k : Nat) (s : PtyState) :
    (repeatOp k winDeleteChar s).cursorRow = s.cursorRow :=
  repeatOp_preserve PtyState.cursorRow winDeleteChar (fun _ => rfl) k s

@[simp] theorem repeat_delete_cursorColumn (k : Nat) (s : PtyState) :
    (repeatOp k winDeleteChar s).cursorColumn = s.cursorColumn :=
  repeatOp_preserve PtyState.cursorColumn winDeleteChar (fun _ => rfl) k s

@[simp] theorem repeat_delete_blank (k : Nat) (s : PtyState) :
    (repeatOp k winDeleteChar s).blank = s.blank :=
  repeatOp_preserve PtyState.blank winDeleteChar (fun _ => rfl) k s

@[simp] theorem ptyInsertCharacters_lines (n : Nat) (s : PtyState) :
    (ptyInsertCharacters n s).lines = s.lines := by
  unfold ptyInsertCharacters
  dsimp only
  simp

@[simp] theorem ptyInsertCharacters_cols (n : Nat) (s : PtyState) :
    (ptyInsertCharacters n s).cols = s.cols := by
  unfold ptyInsertCharacters
  dsimp only
  simp

@[simp] theorem ptyInsertCharacters_blank (n : Nat) (s : PtyState) :
    (ptyInsertCharacters n s).blank = s.blank := by
  unfold ptyInsertCharacters
  dsimp only
  simp

theorem ptyInsertCharacters_cursor (n : Nat) (s : PtyState)
    (hr : s.cursorRow < s.lines) (hc : s.cursorColumn < s.cols) :
    (ptyInsertCharacters n s).cursorRow = s.cursorRow ∧
      (ptyInsertCharacters n s).cursorColumn = s.cursorColumn := by
  unfold ptyInsertCharacters fillCharacters
  dsimp only
  constructor <;> simp [setCharacter_cursorRow, setCharacter_cursorColumn, hr, hc]

@[simp] theorem ptyDeleteCharacters_lines (n : Nat) (s : PtyState) :
    (ptyDeleteCharacters n s).lines = s.lines := by
  unfold ptyDeleteCharacters
  dsimp only
  split_ifs <;> simp

@[simp] theorem ptyDeleteCharacters_cols (n : Nat) (s : PtyState) :
    (ptyDeleteCharacters n s).cols = s.cols := by
  unfold ptyDeleteCharacters
  dsimp only
  split_ifs <;> simp

@[simp] theorem ptyDeleteCharacters_blank (n : Nat) (s : PtyState) :
    (ptyDeleteCharacters n s).blank = s.blank := by
  unfold ptyDeleteCharacters
  dsimp only
  split_ifs <;> simp

theorem ptyDeleteCharacters_cursor (n : Nat) (s : PtyState)
    (hr : s.cursorRow < s.lines) (hc : s.cursorColumn < s.cols) :
    (ptyDeleteCharacters n s).cursorRow = s.cursorRow ∧
      (ptyDeleteCharacters n s).cursorColumn = s.cursorColumn := by
  unfold ptyDeleteCharacters fillCharacters
  dsimp only
  constructor <;> split_ifs <;>
    simp [setCharacter_cursorRow, setCharacter_cursorColumn, hr, hc]

/-- Post-state of ptyInsertCharacters on the cursor row, cell by cell, for
an unclamped count: cells left of the cursor are untouched, the n cells at
the cursor hold the blank image, and the rest of the row is the original
content shifted right by n (the last n original cells fall off the row
edge). -/
theorem ptyInsertCharacters_seg_row (s : PtyState) (n x : Nat) (hM : Mirrored s)
    (hr : s.cursorRow < s.lines) (hc : s.cursorColumn < s.cols)
    (hn : n ≤ s.cols - s.cursorColumn) (hx : x < s.cols) :
    (ptyInsertCharacters n s).seg (idx s.cols s.cursorRow x) =
      if x < s.cursorColumn then s.seg (idx s.cols s.cursorRow x)
      else if x < s.cursorColumn + n then blankImage s
      else s.seg (idx s.cols s.cursorRow (x - n)) := by
  have hsm : (s.cursorRow + 1) * s.cols = s.cursorRow * s.cols + s.cols :=
    Nat.succ_mul _ _
  unfold ptyInsertCharacters
  dsimp only
  rw [if_neg (show ¬(idx s.cols s.cursorRow s.cursorColumn + n >
    (s.cursorRow + 1) * s.cols) from by unfold idx; omega)]
  set mv : Nat → ScreenSegmentCharacter :=
    moveScreenCharacters (idx s.cols s.cursorRow s.cursorColumn + n)
      (idx s.cols s.cursorRow s.cursorColumn)
      ((s.cursorRow + 1) * s.cols - (idx s.cols s.cursorRow s.cursorColumn + n)) s.seg
    with hmv
  set s1 : PtyState := { s with seg := mv } with hs1
  set s2 : PtyState := repeatOp n winInsertBlank s1 with hs2
  have h2cols : s2.cols = s.cols := by rw [hs2, hs1]; simp
  have h2r : s2.cursorRow = s.cursorRow := by rw [hs2, hs1]; simp
  have h2c : s2.cursorColumn = s.cursorColumn := by rw [hs2, hs1]; simp
  have h2seg : s2.seg = s1.seg := by rw [hs2]; simp
  rw [fillCharacters_seg, h2cols]
  by_cases hmem : s.cursorColumn ≤ x ∧ x < s.cursorColumn + n
  · rw [if_pos ⟨by unfold idx; omega, by unfold idx; omega⟩]
    have hself := setCharacter_seg_self s2 (Or.inl ⟨h2r.symm, h2c.symm⟩)
    rw [h2cols] at hself
    rw [hself]
    have hwin := repeat_insert_win n s1 s.cursorColumn (by rw [hs1]) (by rw [hs1]; exact hc)
    rw [← hs2] at hwin
    simp only [hs1] at hwin
    rw [hwin, if_pos (by omega)]
    rw [if_neg (by omega), if_pos (by omega)]
    rfl
  · rw [if_neg (by unfold idx; omega)]
    by_cases hxc : x = s.cursorColumn
    · have hn0 : n = 0 := by omega
      subst hxc
      subst hn0
      have hself := setCharacter_seg_self s2 (Or.inl ⟨h2r.symm, h2c.symm⟩)
      rw [h2cols] at hself
      rw [hself]
      have hwin := repeat_insert_win 0 s1 s.cursorColumn (by rw [hs1]) (by rw [hs1]; exact hc)
      rw [← hs2] at hwin
      simp only [hs1] at hwin
      rw [hwin]
      simp only [if_neg (show ¬(s.cursorColumn < s.cursorColumn + 0) from by omega),
        if_neg (show ¬(s.cursorColumn < s.cursorColumn) from by omega), Nat.sub_zero]
      exact (hM s.cursorRow s.cursorColumn hr hc).symm
    · rw [@setCharacter_seg_other s.cursorRow s.cursorColumn
        (idx s.cols s.cursorRow x) s2 (by rw [h2cols]; unfold idx; omega)]
      rw [h2seg]
      simp only [hs1, hmv, moveScreenCharacters]
      by_cases hsh : s.cursorColumn + n ≤ x
      · rw [if_pos ⟨by unfold idx; omega, by unfold idx; omega⟩]
        rw [show idx s.cols s.cursorRow s.cursorColumn +
          (idx s.cols s.cursorRow x - (idx s.cols s.cursorRow s.cursorColumn + n)) =
          idx s.cols s.cursorRow (x - n) from by unfold idx; omega]
        rw [if_neg (by omega), if_neg (by omega)]
      · rw [if_neg (by unfold idx; omega)]
        rw [if_pos (by omega)]

/-- Post-state of ptyDeleteCharacters on the cursor row, cell by cell, for
an unclamped count: cells left of the cursor are untouched, cells from the
cursor up to column cols - n take the content n cells to their right, and
the last n cells of the row hold the blank image. -/
theorem ptyDeleteCharacters_seg_row (s : PtyState) (n x : Nat)
    (hr : s.cursorRow < s.lines) (hc : s.cursorColumn < s.cols)
    (hn : n ≤ s.cols - s.cursorColumn) (hx : x < s.cols) :
    (ptyDeleteCharacters n s).seg (idx s.cols s.cursorRow x) =
      if x < s.cursorColumn then s.seg (idx s.cols s.cursorRow x)
      else if x < s.cols - n then s.seg (idx s.cols s.cursorRow (x + n))
      else blankImage s := by
  have hsm : (s.cursorRow + 1) * s.cols = s.cursorRow * s.cols + s.cols :=
    Nat.succ_mul _ _
  unfold ptyDeleteCharacters
  dsimp only
  rw [if_neg (show ¬(idx s.cols s.cursorRow s.cursorColumn + n >
    (s.cursorRow + 1) * s.cols) from by unfold idx; omega)]
  by_cases hg : idx s.cols s.cursorRow s.cursorColumn + n < (s.cursorRow + 1) * s.cols
  · rw [if_pos hg]
    set mv : Nat → ScreenSegmentCharacter :=
      moveScreenCharacters (idx s.cols s.cursorRow s.cursorColumn)
        (idx s.cols s.cursorRow s.cursorColumn + n)
        ((s.cursorRow + 1) * s.cols - (idx s.cols s.cursorRow s.cursorColumn + n)) s.seg
      with hmv
    set s1 : PtyState := { s with seg := mv } with hs1
    set s2 : PtyState := repeatOp n winDeleteChar s1 with hs2
    have h2cols : s2.cols = s.cols := by rw [hs2, hs1]; simp
    have h2lines : s2.lines = s.lines := by rw [hs2, hs1]; simp
    have h2seg : s2.seg = s1.seg := by rw [hs2]; simp
    rw [fillCharacters_seg, h2cols]
    by_cases hmem : s.cols - n ≤ x
    · rw [if_pos ⟨by unfold idx; omega, by unfold idx; omega⟩]
      have hself := @setCharacter_seg_self s.cursorRow (s.cols - n)
        s2 (Or.inr ⟨by rw [h2lines]; exact hr, by rw [h2cols]; omega⟩)
      rw [h2cols] at hself
      rw [hself]
      have hwin := repeat_delete_win n s1 (s.cols - n)
        (by simp only [hs1]; omega) (by simp only [hs1]; omega)
      rw [← hs2] at hwin
      simp only [hs1] at hwin
      rw [hwin, if_neg (by omega)]
      rw [if_neg (by omega), if_neg (by omega)]
      rfl
    · rw [if_neg (by unfold idx; omega)]
      rw [@setCharacter_seg_other s.cursorRow (s.cols - n)
        (idx s.cols s.cursorRow x) s2 (by rw [h2cols]; unfold idx; omega)]
      rw [h2seg]
      simp only [hs1, hmv, moveScreenCharacters]
      by_cases hcx : s.cursorColumn ≤ x
      · rw [if_pos ⟨by unfold idx; omega, by unfold idx; omega⟩]
        rw [show idx s.cols s.cursorRow s.cursorColumn + n +
          (idx s.cols s.cursorRow x - idx s.cols s.cursorRow s.cursorColumn) =
          idx s.cols s.cursorRow (x + n) from by unfold idx; omega]
        rw [if_neg (by omega), if_pos (by omega)]
      · rw [if_neg (by unfold idx; omega)]
        rw [if_pos (by omega)]
  · rw [if_neg hg]
    unfold idx at hg
    have hn1 : 1 ≤ n := by omega
    set s2 : PtyState := repeatOp n winDeleteChar s with hs2
    have h2cols : s2.cols = s.cols := by rw [hs2]; simp
    have h2lines : s2.lines = s.lines := by rw [hs2]; simp
    have h2seg : s2.seg = s.seg := by rw [hs2]; simp
    rw [fillCharacters_seg, h2cols]
    by_cases hmem : s.cols - n ≤ x
    · rw [if_pos ⟨by unfold idx; omega, by unfold idx; omega⟩]
      have hself := @setCharacter_seg_self s.cursorRow (s.cols - n)
        s2 (Or.inr ⟨by rw [h2lines]; exact hr, by rw [h2cols]; omega⟩)
      rw [h2cols] at hself
      rw [hself]
      have hwin := repeat_delete_win n s (s.cols - n) (by omega) (by omega)
      rw [← hs2] at hwin
      rw [hwin, if_neg (by omega)]
      rw [if_neg (by omega), if_neg (by omega)]
      rfl
    · rw [if_neg (by unfold idx; omega)]
      rw [@setCharacter_seg_other s.cursorRow (s.cols - n)
        (idx s.cols s.cursorRow x) s2 (by rw [h2cols]; unfold idx; omega)]
      rw [h2seg]
      rw [if_pos (by omega)]

/-! ### Claim C2 -/

/-- C2, as stated, is false: inserting then deleting one character at the
cursor with one column remaining does not restore the row cell for cell —
the last cell of the row, pushed off the row edge by the insert, comes back
blank; checked on the concrete 3×2 state. -/
theorem claim2_counterexample :
    1 ≤ exState.cols - exState.cursorColumn ∧
    (ptyDeleteCharacters 1 (ptyInsertCharacters 1 exState)).seg
        (idx exState.cols exState.cursorRow 1) ≠
      exState.seg (idx exState.cols exState.cursorRow 1) := by
  decide

/-- C2 (amended): for every cursor position and count n at most the columns
remaining at the cursor, insertCharacters(n) then deleteCharacters(n) at
the same cursor position restores the first cols - n cells of the cursor
row exactly; the last n cells of the row end up blank, because the insert
pushes them off the row edge and the delete blank-fills their columns. -/
theorem claim2_amended (s : PtyState) (n x : Nat)
    (hM : Mirrored s)
    (hr : s.cursorRow < s.lines) (hc : s.cursorColumn < s.cols)
    (hn : n ≤ s.cols - s.cursorColumn) (hx : x < s.cols) :
    (ptyDeleteCharacters n (ptyInsertCharacters n s)).seg
        (idx s.cols s.cursorRow x) =
      if x < s.cols - n then s.seg (idx s.cols s.cursorRow x)
      else blankImage s := by
  set sI := ptyInsertCharacters n s with hsI
  have hIr : sI.cursorRow = s.cursorRow := (ptyInsertCharacters_cursor n s hr hc).1
  have hIc : sI.cursorColumn = s.cursorColumn := (ptyInsertCharacters_cursor n s hr hc).2
  have hIl : sI.lines = s.lines := by rw [hsI]; simp
  have hIcols : sI.cols = s.cols := by rw [hsI]; simp
  have hIb : sI.blank = s.blank := by rw [hsI]; simp
  have hD := ptyDeleteCharacters_seg_row sI n x
    (by rw [hIr, hIl]; exact hr) (by rw [hIc, hIcols]; exact hc)
    (by rw [hIc, hIcols]; exact hn) (by rw [hIcols]; exact hx)
  rw [hIr, hIc, hIcols] at hD
  have hbi : blankImage sI = blankImage s := by unfold blankImage; rw [hIb]
  rw [hbi] at hD
  rw [hD]
  by_cases h1 : x < s.cursorColumn
  · rw [if_pos h1]
    have hI := ptyInsertCharacters_seg_row s n x hM hr hc hn hx
    rw [← hsI] at hI
    rw [hI, if_pos h1]
    rw [if_pos (by omega)]
  · rw [if_neg h1]
    by_cases h2 : x < s.cols - n
    · rw [if_pos h2]
      have hI := ptyInsertCharacters_seg_row s n (x + n) hM hr hc hn (by omega)
      rw [← hsI] at hI
      rw [hI, if_neg (by omega), if_neg (by omega)]
      rw [show x + n - n = x from by omega]
      rw [if_pos h2]
    · rw [if_neg h2, if_neg h2]

/-- C2 witness: inserting then deleting one character on the concrete 3×2
state restores the cell left of the row edge and blanks the last cell. -/
theorem claim2_witness :
    (ptyDeleteCharacters 1 (ptyInsertCharacters 1 exState)).seg
        (idx exState.cols exState.cursorRow 0) =
      exState.seg (idx exState.cols exState.cursorRow 0) ∧
    (ptyDeleteCharacters 1 (ptyInsertCharacters 1 exState)).seg
        (idx exState.cols exState.cursorRow 1) = blankImage exState := by
  constructor
  · have h := claim2_amended exState 1 0 exState_mirrored (by decide) (by decide)
      (by decide) (by decide)
    rw [if_pos (by decide)] at h
    exact h
  · have h := claim2_amended exState 1 1 exState_mirrored (by decide) (by decide)
      (by decide) (by decide)
    rw [if_neg (by decide)] at h
    exact h

/-! ### Claim C7 -/

/-- The cursor invariant: the stored cursor fields address a cell of the
grid. -/
def CursorInBounds (s : PtyState) : Prop :=
  s.cursorRow < s.lines ∧ s.cursorColumn < s.cols

theorem cursorInBounds_setCursorPosition (row column : Nat) (s : PtyState)
    (h : CursorInBounds s) : CursorInBounds (ptySetCursorPosition row column s) := by
  unfold CursorInBounds ptySetCursorPosition at *
  split
  · next hp => exact hp
  · exact h

theorem cursorInBounds_moveCursorUp (amount : Nat) (s : PtyState)
    (h : CursorInBounds s) : CursorInBounds (ptyMoveCursorUp amount s) := by
  unfold ptyMoveCursorUp ptySetCursorRow
  dsimp only
  split_ifs <;> first
    | exact cursorInBounds_setCursorPosition _ _ s h
    | exact h

theorem cursorInBounds_moveCursorDown (amount : Nat) (s : PtyState)
    (h : CursorInBounds s) : CursorInBounds (ptyMoveCursorDown amount s) := by
  unfold ptyMoveCursorDown ptySetCursorRow
  dsimp only
  split_ifs <;> first
    | exact cursorInBounds_setCursorPosition _ _ s h
    | exact h

theorem cursorInBounds_moveCursorLeft (amount : Nat) (s : PtyState)
    (h : CursorInBounds s) : CursorInBounds (ptyMoveCursorLeft amount s) := by
  unfold ptyMoveCursorLeft ptySetCursorColumn
  dsimp only
  split_ifs <;> first
    | exact cursorInBounds_setCursorPosition _ _ s h
    | exact h

theorem cursorInBounds_moveCursorRight (amount : Nat) (s : PtyState)
    (h : CursorInBounds s) : CursorInBounds (ptyMoveCursorRight amount s) := by
  unfold ptyMoveCursorRight ptySetCursorColumn
  dsimp only
  split_ifs <;> first
    | exact cursorInBounds_setCursorPosition _ _ s h
    | exact h

theorem cursorInBounds_scrollForward (count : Nat) (s : PtyState)
    (h : CursorInBounds s) : CursorInBounds (ptyScrollForward count s) := by
  obtain ⟨h1, h2⟩ := ptyScrollForward_cursor count s h.1 h.2
  exact ⟨by rw [h1, ptyScrollForward_lines]; exact h.1,
    by rw [h2, ptyScrollForward_cols]; exact h.2⟩

theorem cursorInBounds_scrollBackward (count : Nat) (s : PtyState)
    (h : CursorInBounds s) : CursorInBounds (ptyScrollBackward count s) := by
  obtain ⟨h1, h2⟩ := ptyScrollBackward_cursor count s h.1 h.2
  exact ⟨by rw [h1, ptyScrollBackward_lines]; exact h.1,
    by rw [h2, ptyScrollBackward_cols]; exact h.2⟩

theorem cursorInBounds_moveUp1 (s : PtyState)
    (h : CursorInBounds s) : CursorInBounds (ptyMoveUp1 s) := by
  unfold ptyMoveUp1
  split_ifs
  · exact cursorInBounds_scrollBackward 1 s h
  · exact cursorInBounds_moveCursorUp 1 s h

theorem cursorInBounds_moveDown1 (s : PtyState)
    (h : CursorInBounds s) : CursorInBounds (ptyMoveDown1 s) := by
  unfold ptyMoveDown1
  split_ifs
  · exact cursorInBounds_scrollForward 1 s h
  · exact cursorInBounds_moveCursorDown 1 s h

theorem cursorInBounds_insertLines (count : Nat) (s : PtyState)
    (h : CursorInBounds s) : CursorInBounds (ptyInsertLines count s) := by
  unfold ptyInsertLines
  split_ifs
  · exact cursorInBounds_scrollBackward count
      (ptySetScrollRegion s.cursorRow s.scrollRegionBottom s) h
  · exact h

theorem cursorInBounds_deleteLines (count : Nat) (s : PtyState)
    (h : CursorInBounds s) : CursorInBounds (ptyDeleteLines count s) := by
  unfold ptyDeleteLines
  split_ifs
  · exact cursorInBounds_scrollForward count
      (ptySetScrollRegion s.cursorRow s.scrollRegionBottom s) h
  · exact h

theorem cursorInBounds_insertCharacters (count : Nat) (s : PtyState)
    (h : CursorInBounds s) : CursorInBounds (ptyInsertCharacters count s) := by
  obtain ⟨h1, h2⟩ := ptyInsertCharacters_cursor count s h.1 h.2
  exact ⟨by rw [h1, ptyInsertCharacters_lines]; exact h.1,
    by rw [h2, ptyInsertCharacters_cols]; exact h.2⟩

theorem cursorInBounds_deleteCharacters (count : Nat) (s : PtyState)
    (h : CursorInBounds s) : CursorInBounds (ptyDeleteCharacters count s) := by
  obtain ⟨h1, h2⟩ := ptyDeleteCharacters_cursor count s h.1 h.2
  exact ⟨by rw [h1, ptyDeleteCharacters_lines]; exact h.1,
    by rw [h2, ptyDeleteCharacters_cols]; exact h.2⟩

theorem cursorInBounds_winAddChar (ch : Nat) (s : PtyState)
    (h : CursorInBounds s) : CursorInBounds (winAddChar ch s) := by
  unfold CursorInBounds winAddChar at *
  dsimp only
  split_ifs with hA hB hC
  · exact ⟨h.1, hA⟩
  · exact ⟨h.1, show (0:Nat) < s.cols from by omega⟩
  · exact ⟨hC, show (0:Nat) < s.cols from by omega⟩
  · exact h

theorem cursorInBounds_ptyAddCharacter (ch : Nat) (s : PtyState)
    (h : CursorInBounds s) : CursorInBounds (ptyAddCharacter ch s) := by
  unfold ptyAddCharacter
  dsimp only
  have hw := cursorInBounds_winAddChar ch s h
  obtain ⟨h1, h2⟩ := @setCharacter_cursor s.cursorRow s.cursorColumn
    (winAddChar ch s) hw.1 hw.2
  exact ⟨by rw [h1, setCharacter_lines]; exact hw.1,
    by rw [h2, setCharacter_cols]; exact hw.2⟩

theorem cursorInBounds_clearToEndOfDisplay (s : PtyState)
    (h : CursorInBounds s) : CursorInBounds (ptyClearToEndOfDisplay s) := by
  unfold ptyClearToEndOfDisplay setCurrentCharacter
  dsimp only
  have hx : CursorInBounds (setCharacter (winClrToBot s).cursorRow
      (winClrToBot s).cursorColumn (winClrToBot s)) := by
    obtain ⟨h1, h2⟩ := setCharacter_cursor (winClrToBot s) h.1 h.2
    exact ⟨by rw [h1, setCharacter_lines]; exact h.1,
      by rw [h2, setCharacter_cols]; exact h.2⟩
  exact hx

theorem cursorInBounds_clearToEndOfLine (s : PtyState)
    (h : CursorInBounds s) : CursorInBounds (ptyClearToEndOfLine s) := by
  unfold ptyClearToEndOfLine setCurrentCharacter
  dsimp only
  have hx : CursorInBounds (setCharacter (winClrToEol s).cursorRow
      (winClrToEol s).cursorColumn (winClrToEol s)) := by
    obtain ⟨h1, h2⟩ := setCharacter_cursor (winClrToEol s) h.1 h.2
    exact ⟨by rw [h1, setCharacter_lines]; exact h.1,
      by rw [h2, setCharacter_cols]; exact h.2⟩
  exact hx

theorem cursorInBounds_cbolLoop (column : Nat) : ∀ (fuel : Nat) (s : PtyState),
    CursorInBounds s → CursorInBounds (cbolLoop column fuel s) := by
  intro fuel
  induction fuel with
  | zero => intro s h; exact h
  | succ f ih =>
    intro s h
    rw [cbolLoop]
    split
    · exact cursorInBounds_ptyAddCharacter 32 s h
    · exact ih _ (cursorInBounds_ptyAddCharacter 32 s h)

theorem cursorInBounds_clearToBeginningOfLine (fuel : Nat) (s : PtyState)
    (h : CursorInBounds s) : CursorInBounds (ptyClearToBeginningOfLine fuel s) := by
  unfold ptyClearToBeginningOfLine ptySetCursorColumn
  dsimp only
  have h1 : CursorInBounds (if s.cursorColumn > 0 then
      ptySetCursorPosition s.cursorRow 0 s else s) := by
    split
    · exact cursorInBounds_setCursorPosition _ _ s h
    · exact h
  have h2 := cursorInBounds_cbolLoop s.cursorColumn fuel _ h1
  exact cursorInBounds_setCursorPosition _ _ _ h2

/-- C7: after every engine operation, the mirrored cursor fields stay within
[0, rows) × [0, columns): the move operations clamp, the tab operations'
out-of-range targets are rejected by the cursor-motion primitive, and every
other operation either leaves the cursor alone or restores it. -/
theorem claim7_cursor_invariant (op : PtyOp) (s : PtyState)
    (hr : s.cursorRow < s.lines) (hc : s.cursorColumn < s.cols) :
    (applyOp op s).cursorRow < (applyOp op s).lines ∧
      (applyOp op s).cursorColumn < (applyOp op s).cols := by
  have h : CursorInBounds s := ⟨hr, hc⟩
  cases op with
  | setCursorPosition row column => exact cursorInBounds_setCursorPosition row column s h
  | setCursorRow row => exact cursorInBounds_setCursorPosition row s.cursorColumn s h
  | setCursorColumn column => exact cursorInBounds_setCursorPosition s.cursorRow column s h
  | saveCursorPosition => exact h
  | restoreCursorPosition => exact cursorInBounds_setCursorPosition _ _ s h
  | setScrollRegion top bottom => exact h
  | scrollBackward count => exact cursorInBounds_scrollBackward count s h
  | scrollForward count => exact cursorInBounds_scrollForward count s h
  | moveCursorUp amount => exact cursorInBounds_moveCursorUp amount s h
  | moveCursorDown amount => exact cursorInBounds_moveCursorDown amount s h
  | moveCursorLeft amount => exact cursorInBounds_moveCursorLeft amount s h
  | moveCursorRight amount => exact cursorInBounds_moveCursorRight amount s h
  | moveUp1 => exact cursorInBounds_moveUp1 s h
  | moveDown1 => exact cursorInBounds_moveDown1 s h
  | tabBackward => exact cursorInBounds_setCursorPosition _ _ s h
  | tabForward => exact cursorInBounds_setCursorPosition _ _ s h
  | insertLines count => exact cursorInBounds_insertLines count s h
  | deleteLines count => exact cursorInBounds_deleteLines count s h
  | insertCharacters count => exact cursorInBounds_insertCharacters count s h
  | deleteCharacters count => exact cursorInBounds_deleteCharacters count s h
  | addCharacter ch => exact cursorInBounds_ptyAddCharacter ch s h
  | clearToEndOfDisplay => exact cursorInBounds_clearToEndOfDisplay s h
  | clearToEndOfLine => exact cursorInBounds_clearToEndOfLine s h
  | clearToBeginningOfLine fuel => exact cursorInBounds_clearToBeginningOfLine fuel s h

/-- C7 witness: tabForward on the concrete 2-column state computes the
out-of-range target column 8, which the cursor-motion primitive rejects,
leaving the stored cursor in bounds. -/
theorem claim7_witness :
    (applyOp PtyOp.tabForward exState).cursorRow <
      (applyOp PtyOp.tabForward exState).lines ∧
    (applyOp PtyOp.tabForward exState).cursorColumn <
      (applyOp PtyOp.tabForward exState).cols :=
  claim7_cursor_invariant PtyOp.tabForward exState (by decide) (by decide)

end PtyScreen
